import Mathlib

/-!
# Verification of the delve-dungeon rules engine

Shallow embedding of the game engine of the `delve-dungeon` repository:
the dice / skill-check subsystem (`src/engine/dice.js`), the procedural
floor generator (`src/engine/floor-generator.js`), the combat resolver
(`src/engine/combat.js`), the loot resolver (`src/engine/loot.js`) and the
action orchestrator (`src/engine/action-processor.js`).

Randomness model: `Math.random()` in the engine returns a double of the
form `k / 2^53` with `0 ≤ k < 2^53`.  We model the random source as a
stream `g : Nat → Nat` of such numerators together with a cursor index,
and the predicate `SrcOk g` stating every value is below `2^53`.  All
floor/threshold computations on random values then become exact integer
arithmetic (`⌊(k/2^53)·s⌋ = k·s / 2^53`, `k/2^53 < a/b ↔ k·b < a·2^53`).

JS numbers that the engine only ever adds, compares and floors are
modelled as `Int` (or `Nat` where the source guarantees nonnegativity);
quantities multiplied by fractional factors (damage variance, resistance
multipliers, heal percentages) are modelled as `ℚ` with `Math.round` as
`jround` and `Math.floor` as `Int.floor`.
-/

namespace Delve

/-- Granularity of the JS random source: `Math.random()` produces `k / 2^53`. -/
def M : Nat := 2 ^ 53

/-- A stream of random numerators (one per call to `Math.random()`). -/
def Src : Type := Nat → Nat

/-- Well-formed random source: every numerator is below `2^53`. -/
def SrcOk (g : Src) : Prop := ∀ n, g n < M

/-- `Math.floor(Math.random() * sides) + 1` — one die roll (`dice.js` `roll`).
Returns the roll together with the advanced stream cursor. -/
def roll (g : Src) (i : Nat) (sides : Nat) : Nat × Nat :=
  (g i * sides / M + 1, i + 1)

/-- `Math.random() < num/den` as exact integer arithmetic. -/
def chance (k num den : Nat) : Bool := k * den < num * M

/-- JS `Math.round`: round half toward positive infinity. -/
def jround (q : ℚ) : ℤ := ⌊q + 1 / 2⌋

/-- JS `Math.floor` on a rational. -/
def jfloor (q : ℚ) : ℤ := ⌊q⌋

-- ════════════════ DICE — `src/engine/dice.js` ════════════════

/-- Outcome categories of a skill check. -/
inductive Outcome
  | critical_success
  | critical_failure
  | success
  | partial_success
  | failure
  deriving DecidableEq, Repr

/-- One entry of the `perkBonuses` argument: `{ perk, effect: number }`;
a missing `effect` is read as `p.effect || 0`. -/
structure PerkBonus where
  name : String
  effect : Option Int
  deriving DecidableEq, Repr

/-- The immutable record returned by `skillCheck` (`DiceResult`). -/
structure DiceResult where
  base_roll : Int
  stat_modifier : Int
  governing_stat : Option String
  stat_value : Int
  skill_level : Int
  skill_bonus : Int
  perk_total : Int
  final_total : Int
  dc : Int
  passed : Bool
  outcome : Outcome
  is_critical : Bool
  is_fumble : Bool
  deriving DecidableEq, Repr

/-- `statModifier(statValue) = Math.floor((statValue - 10) / 2)`. -/
def statModifier (statValue : Int) : Int := (statValue - 10).fdiv 2

/-- `SKILL_STAT_MAP`: skill name → governing base stat. -/
def skillStatMap (skillName : String) : Option String :=
  if skillName = "melee" then some "strength"
  else if skillName = "ranged" then some "dexterity"
  else if skillName = "magic" then some "intelligence"
  else if skillName = "stealth" then some "dexterity"
  else if skillName = "perception" then some "wisdom"
  else if skillName = "persuasion" then some "charisma"
  else if skillName = "lockpicking" then some "dexterity"
  else if skillName = "survival" then some "wisdom"
  else if skillName = "crafting" then some "intelligence"
  else if skillName = "alchemy" then some "intelligence"
  else none

/-- Player base stats (`{ strength, dexterity, ... }`). -/
structure BaseStats where
  strength : Int
  dexterity : Int
  constitution : Int
  intelligence : Int
  wisdom : Int
  charisma : Int
  deriving DecidableEq, Repr

/-- `baseStats[statName]`; an unknown key reads as `0` (JS `undefined`,
which the `|| 10` at the call site then replaces). -/
def BaseStats.lookup (b : BaseStats) (stat : String) : Int :=
  if stat = "strength" then b.strength
  else if stat = "dexterity" then b.dexterity
  else if stat = "constitution" then b.constitution
  else if stat = "intelligence" then b.intelligence
  else if stat = "wisdom" then b.wisdom
  else if stat = "charisma" then b.charisma
  else 0

/-- Arguments of `skillCheck` (defaults as in the source). -/
structure SkillCheckParams where
  skillName : String
  dc : Int
  baseStats : Option BaseStats
  /-- skills map: skill name → level (`skills?.[skillName]?.level || 1`);
  an absent map behaves like the empty association list. -/
  skills : List (String × Int)
  critRange : Int := 20
  perkBonuses : List PerkBonus := []
  advantage : Bool := false
  disadvantage : Bool := false
  deriving DecidableEq, Repr

/-- `skills?.[skillName]?.level || 1`. -/
def lookupSkillLevel (skills : List (String × Int)) (skillName : String) : Int :=
  match skills.find? (fun p => p.1 = skillName) with
  | some p => if p.2 = 0 then 1 else p.2
  | none => 1

/-- `governingStat && baseStats ? (baseStats[governingStat] || 10) : 10`. -/
def resolveStatValue (governing : Option String) (baseStats : Option BaseStats) : Int :=
  match governing, baseStats with
  | some gs, some bs => if bs.lookup gs = 0 then 10 else bs.lookup gs
  | _, _ => 10

/-- `skillCheck` (`dice.js`): one d20 roll (or two under advantage /
disadvantage), modifiers, final total and outcome classification. -/
def skillCheck (g : Src) (i : Nat) (p : SkillCheckParams) : DiceResult × Nat :=
  let rolled :=
    if p.advantage ∧ ¬ p.disadvantage then
      let r1 := roll g i 20
      let r2 := roll g r1.2 20
      (max r1.1 r2.1, r2.2)
    else if p.disadvantage ∧ ¬ p.advantage then
      let r1 := roll g i 20
      let r2 := roll g r1.2 20
      (min r1.1 r2.1, r2.2)
    else
      roll g i 20
  let baseRoll : Int := (rolled.1 : Int)
  let governingStat := skillStatMap p.skillName
  let statValue := resolveStatValue governingStat p.baseStats
  let statMod := statModifier statValue
  let skillLevel := lookupSkillLevel p.skills p.skillName
  let skillBonus := skillLevel.fdiv 10
  let perkTotal := (p.perkBonuses.map (fun b => b.effect.getD 0)).sum
  let finalTotal := baseRoll + statMod + skillBonus + perkTotal
  let isCriticalSuccess := baseRoll ≥ p.critRange
  let isCriticalFailure := baseRoll = 1
  let outcome : Outcome :=
    if isCriticalSuccess then .critical_success
    else if isCriticalFailure then .critical_failure
    else if finalTotal ≥ p.dc then .success
    else if finalTotal ≥ p.dc - 2 then .partial_success
    else .failure
  let passed := outcome = Outcome.success ∨ outcome = Outcome.critical_success ∨
    outcome = Outcome.partial_success
  ({ base_roll := baseRoll
     stat_modifier := statMod
     governing_stat := governingStat
     stat_value := statValue
     skill_level := skillLevel
     skill_bonus := skillBonus
     perk_total := perkTotal
     final_total := finalTotal
     dc := p.dc
     passed := decide passed
     outcome := outcome
     is_critical := decide isCriticalSuccess
     is_fumble := decide isCriticalFailure }, rolled.2)

/-- The outcome-priority classifier exactly as the spec words it (§4.1):
roll ≥ critRange → critical_success; roll = 1 → critical_failure;
total ≥ dc → success; total ≥ dc − 2 → partial; else failure. -/
def specOutcome (baseRoll critRange total dc : Int) : Outcome :=
  if baseRoll ≥ critRange then .critical_success
  else if baseRoll = 1 then .critical_failure
  else if total ≥ dc then .success
  else if total ≥ dc - 2 then .partial_success
  else .failure

/-- The result record of `rollDamage`. -/
structure DamageRollResult where
  rawDamage : Int
  mitigatedDamage : Int
  armorReduced : Int
  resistanceMultiplier : ℚ
  resistanceApplied : Bool
  isCritical : Bool
  deriving DecidableEq, Repr

/-- `0.8 + Math.random() * 0.4` — the damage variance drawn from numerator `k`. -/
def damageVariance (k : Nat) : ℚ := 4 / 5 + (k : ℚ) / (M : ℚ) * (2 / 5)

/-- `rollDamage` (`dice.js`) with the variance factor made explicit. -/
def rollDamageWith (variance : ℚ) (baseDamage weaponBonus : ℚ) (isCritical : Bool)
    (targetArmor : Int) (resistanceMultiplier : ℚ) : DamageRollResult :=
  let raw0 := jround ((baseDamage + weaponBonus) * variance)
  let rawDamage := if isCritical then raw0 * 2 else raw0
  let afterResistance := jround ((rawDamage : ℚ) * resistanceMultiplier)
  let armorReduced := min targetArmor (afterResistance - 1)
  let mitigatedDamage := max 1 (afterResistance - targetArmor)
  { rawDamage := rawDamage
    mitigatedDamage := mitigatedDamage
    armorReduced := max 0 armorReduced
    resistanceMultiplier := resistanceMultiplier
    resistanceApplied := decide (rawDamage ≠ afterResistance)
    isCritical := isCritical }

/-- `rollDamage` drawing its variance from the random source. -/
def rollDamage (g : Src) (i : Nat) (baseDamage weaponBonus : ℚ) (isCritical : Bool)
    (targetArmor : Int) (resistanceMultiplier : ℚ) : DamageRollResult × Nat :=
  (rollDamageWith (damageVariance (g i)) baseDamage weaponBonus isCritical
    targetArmor resistanceMultiplier, i + 1)

/-- `randomDC({min, max}) = min + Math.floor(Math.random() * (max - min + 1))`. -/
def randomDC (g : Src) (i : Nat) (lo hi : Int) : Int × Nat :=
  (lo + ((g i : Int) * (hi - lo + 1)).fdiv (M : Int), i + 1)

/-- `weightedRandom` inner loop: `roll -= entry.weight; if (roll <= 0) return item`.
`r` carries the running value scaled by `2^53` (so it stays an integer). -/
def weightedGo (r : Int) : List (Int × α) → Option α
  | [] => none
  | (w, it) :: rest =>
    let r' := r - w * (M : Int)
    if r' ≤ 0 then some it else weightedGo r' rest

/-- `weightedRandom(pool)` (`dice.js`): total the weights, bail out on a
nonpositive total (consuming no randomness), otherwise scale one random
numerator by the total and walk the pool; the JS fallback
`pool[pool.length-1]?.item || null` is the `getLast?` branch. -/
def weightedRandom (g : Src) (i : Nat) (pool : List (Int × α)) : Option α × Nat :=
  let totalWeight := (pool.map Prod.fst).sum
  if totalWeight ≤ 0 then (none, i)
  else
    match weightedGo ((g i : Int) * totalWeight) pool with
    | some it => (some it, i + 1)
    | none => ((pool.getLast?).map Prod.snd, i + 1)

-- ════════════════ FLOOR GENERATOR — `src/engine/floor-generator.js` ════════════════

/-- Room types (`ROOM_TYPES` plus `BOSS_ROOM_TYPE`). -/
inductive RoomType
  | standard
  | treasure
  | trap
  | rest
  | locked
  | boss
  deriving DecidableEq, Repr

/-- A chest sub-record. -/
structure Chest where
  is_opened : Bool
  is_locked : Bool
  lock_dc : Option Int
  is_looted : Bool
  deriving DecidableEq, Repr

/-- A trap sub-record as built by `generateTrap`. -/
structure Trap where
  name : String
  damage_type : String
  damage : Int
  effect : Option String
  check : String
  description : String
  dc : Int
  is_triggered : Bool
  is_disarmed : Bool
  deriving DecidableEq, Repr

/-- A locked-room lock; `is_picked` models the property `unlockRoom` adds
(absent, i.e. `false`, until then). -/
structure Lock where
  lock_dc : Int
  requires_key : Bool
  is_picked : Bool
  deriving DecidableEq, Repr

/-- Per-tier stat scaling factors; a missing field is read through
`scaling.x_per_tier || default` at use sites. -/
structure StatScaling where
  hp_per_tier : Option ℚ
  damage_per_tier : Option ℚ
  armor_per_tier : Option ℚ
  deriving DecidableEq, Repr

/-- An enemy ability's HP-threshold trigger condition. -/
structure TriggerCondition where
  type : String
  value : ℚ
  deriving DecidableEq, Repr

/-- An enemy ability (the declarative fields `combat.js` reads). -/
structure Ability where
  name : String
  base_dc : Option Int
  check_type : Option String
  damage_multiplier : Option ℚ
  cooldown_rounds : Option Int
  max_charges : Option Int
  trigger_condition : Option TriggerCondition
  effect_chance : Option ℚ
  effect_category : Option String
  effect_status : Option String
  effect_duration_actions : Option Int
  deriving DecidableEq, Repr

/-- An `enemy_rules` row with its JSON fields already decoded (the
`try { JSON.parse } catch { default }` at the persistence boundary is
outside the model; per-field `|| default` reads are kept). -/
structure EnemyRule where
  enemy_id : Int
  enemy_name : String
  is_boss : Int
  spawn_weight : Int
  base_hp : ℚ
  base_damage : ℚ
  base_armor : ℚ
  stat_scaling : StatScaling
  abilities : List Ability
  resistances : List (String × ℚ)
  weaknesses : List (String × ℚ)
  effect_immunities : List String
  xp_reward : Int
  gold_reward_min : Int
  gold_reward_max : Int
  ai_descriptor : Option String
  deriving DecidableEq, Repr

/-- A runtime enemy instance (`createEnemyInstance`).  The JS
`instance_id` string interpolates `Date.now()` (wall clock, outside the
model) and `roll(10000)`; `instance_roll` records the consumed roll. -/
structure Enemy where
  enemy_id : Int
  instance_roll : Nat
  name : String
  hp_current : Int
  hp_max : Int
  damage : Int
  armor : Int
  abilities : List Ability
  resistances : List (String × ℚ)
  weaknesses : List (String × ℚ)
  effect_immunities : List String
  is_boss : Int
  is_dead : Bool
  xp_reward : Int
  gold_reward_min : Int
  gold_reward_max : Int
  ai_descriptor : String
  awareness : String
  position : String
  position_zone : String
  dc_modifier : Int
  skip_next_action : Bool
  ability_cooldowns : List (String × Int)
  ability_charges : List (String × Int)
  deriving DecidableEq, Repr

/-- A room node of a floor map. -/
structure Room where
  room_number : Nat
  type : RoomType
  is_cleared : Bool
  is_accessible : Bool
  connections : List Nat
  actions_in_room_count : Nat
  geometry_tags : List String
  enemies : List Enemy
  chest : Option Chest
  trap : Option Trap
  lock : Option Lock
  rest_heal : Option ℚ
  is_exit : Bool
  is_boss_room : Bool
  deriving DecidableEq, Repr

/-- A floor map: the room list of one floor. -/
structure FloorMap where
  rooms : List Room
  deriving DecidableEq, Repr

/-- A dungeon's `dc_range` JSON field. -/
structure DcRange where
  min : Int
  max : Int
  deriving DecidableEq, Repr

/-- The dungeon row fields the engine reads. -/
structure Dungeon where
  id : Int
  dc_range : DcRange
  difficulty_tier : Int
  floor_count : Int
  entry_cost : Int
  deriving DecidableEq, Repr

/-- `createEnemyInstance(rule, difficultyTier, isBoss)`: exponential stat
scaling `base × factor^(max 0 (tier−1))` with JS rounding. -/
def createEnemyInstance (g : Src) (i : Nat) (rule : EnemyRule) (difficultyTier : Int)
    (isBoss : Bool) : Enemy × Nat :=
  let scaling := rule.stat_scaling
  let tierMultiplier : Nat := (difficultyTier - 1).toNat
  let scaledHp := jround (rule.base_hp * (scaling.hp_per_tier.getD (13 / 10)) ^ tierMultiplier)
  let scaledDamage :=
    jround (rule.base_damage * (scaling.damage_per_tier.getD (23 / 20)) ^ tierMultiplier)
  let scaledArmor := jround (rule.base_armor * (scaling.armor_per_tier.getD (11 / 10)) ^ tierMultiplier)
  let inst := roll g i 10000
  ({ enemy_id := rule.enemy_id
     instance_roll := inst.1
     name := rule.enemy_name
     hp_current := scaledHp
     hp_max := scaledHp
     damage := scaledDamage
     armor := scaledArmor
     abilities := rule.abilities
     resistances := rule.resistances
     weaknesses := rule.weaknesses
     effect_immunities := rule.effect_immunities
     is_boss := if isBoss then 1 else 0
     is_dead := false
     xp_reward := rule.xp_reward
     gold_reward_min := rule.gold_reward_min
     gold_reward_max := rule.gold_reward_max
     ai_descriptor := rule.ai_descriptor.getD ""
     awareness := "idle"
     position := "guarding"
     position_zone := "open"
     dc_modifier := 0
     skip_next_action := false
     ability_cooldowns := []
     ability_charges := [] }, inst.2)

/-- Spawn `count` weighted picks from `rules` (the inner loops of
`spawnEnemies`); a `null` pick contributes nothing. -/
def spawnRegulars (g : Src) (rules : List EnemyRule) (difficultyTier : Int) :
    Nat → Nat → List Enemy × Nat
  | i, 0 => ([], i)
  | i, n + 1 =>
    let wr := weightedRandom g i (rules.map (fun r => (r.spawn_weight, r)))
    match wr.1 with
    | some rule =>
      let e := createEnemyInstance g wr.2 rule difficultyTier false
      let rest := spawnRegulars g rules difficultyTier e.2 n
      (e.1 :: rest.1, rest.2)
    | none =>
      spawnRegulars g rules difficultyTier wr.2 n

/-- `spawnEnemies(enemyRules, floorNumber, difficultyTier, isBossRoom)`. -/
def spawnEnemies (g : Src) (i : Nat) (enemyRules : List EnemyRule) (floorNumber : Nat)
    (difficultyTier : Int) (isBossRoom : Bool) : List Enemy × Nat :=
  if isBossRoom then
    let bossRules := enemyRules.filter (fun r => r.is_boss == 1)
    let bossStep : List Enemy × Nat :=
      match bossRules.head? with
      | some bossRule =>
        let e := createEnemyInstance g i bossRule difficultyTier true
        ([e.1], e.2)
      | none => ([], i)
    let i1 := bossStep.2
    if chance (g i1) 1 2 then
      let regularRules := enemyRules.filter (fun r => r.is_boss == 0 && 0 < r.spawn_weight)
      let addRoll := roll g (i1 + 1) 2
      let adds := spawnRegulars g regularRules difficultyTier addRoll.2 addRoll.1
      (bossStep.1 ++ adds.1, adds.2)
    else (bossStep.1, i1 + 1)
  else
    let regularRules := enemyRules.filter (fun r => r.is_boss == 0 && 0 < r.spawn_weight)
    if regularRules.isEmpty then ([], i)
    else
      let enemyCount := 1 + g i * min 2 floorNumber / M
      spawnRegulars g regularRules difficultyTier (i + 1) enemyCount

/-- The five trap definitions of `generateTrap`, before `dc` and the
trigger flags are attached. -/
def trapTable : List (String × String × Int × Option String × String × String) :=
  [("Poison Dart Trap", "piercing", 8, some "poison", "perception",
      "Thin wires stretch across the corridor at ankle height."),
   ("Flame Jet", "fire", 12, none, "dexterity",
      "Scorch marks blacken the walls. The air smells of oil."),
   ("Collapsing Floor", "blunt", 10, some "stun", "perception",
      "The flagstones here seem uneven, slightly loose."),
   ("Necrotic Rune", "necrotic", 15, none, "magic",
      "A faintly glowing sigil is carved into the floor."),
   ("Spider Web Ambush", "piercing", 6, some "stun", "perception",
      "Thick webbing covers the doorway ahead.")]

/-- `generateTrap(dcRange)`: pick one of the five templates uniformly,
then roll its DC.  The `headD` fallback is unreachable for a well-formed
source (the index is always < 5). -/
def generateTrap (g : Src) (i : Nat) (dcRange : DcRange) : Trap × Nat :=
  let idx := g i * trapTable.length / M
  let t := (trapTable.drop idx).headD ("Poison Dart Trap", "piercing", 8, some "poison",
    "perception", "Thin wires stretch across the corridor at ankle height.")
  let dc := randomDC g (i + 1) dcRange.min dcRange.max
  ({ name := t.1
     damage_type := t.2.1
     damage := t.2.2.1
     effect := t.2.2.2.1
     check := t.2.2.2.2.1
     description := t.2.2.2.2.2
     dc := dc.1
     is_triggered := false
     is_disarmed := false }, dc.2)

/-- The weighted room-type table of `pickRoomType`, with the deeper-floor
re-weighting (`floorNumber ≥ 2`: trap +5, locked +5, standard −10). -/
def roomTypePool (floorNumber : Nat) : List (Int × RoomType) :=
  if 2 ≤ floorNumber then
    [(35, RoomType.standard), (15, RoomType.treasure), (20, RoomType.trap),
     (10, RoomType.rest), (15, RoomType.locked)]
  else
    [(45, RoomType.standard), (15, RoomType.treasure), (15, RoomType.trap),
     (10, RoomType.rest), (10, RoomType.locked)]

/-- `pickRoomType(floorNumber, ...)`: one weighted draw.  The pool is
nonempty with total weight 95 > 0, so `weightedRandom` never returns
`none`; the `getD` default is unreachable. -/
def pickRoomType (g : Src) (i : Nat) (floorNumber : Nat) : RoomType × Nat :=
  let wr := weightedRandom g i (roomTypePool floorNumber)
  (wr.1.getD RoomType.standard, wr.2)

/-- `createRoom` (`floor-generator.js`): build one room, consuming
randomness in source order — enemies (and trap definition), then chest,
then lock, then rest heal. -/
def createRoom (g : Src) (i : Nat) (room_number : Nat) (type : RoomType) (dcRange : DcRange)
    (floorNumber : Nat) (enemyRules : List EnemyRule) (isEntrance : Bool) (dungeon : Dungeon)
    (isBossRoom : Bool) (isExit : Bool) : Room × Nat :=
  let enemiesStep : List Enemy × Nat :=
    if type = RoomType.standard ∧ ¬ isEntrance then
      if chance (g i) 6 10 then
        spawnEnemies g (i + 1) enemyRules floorNumber dungeon.difficulty_tier false
      else ([], i + 1)
    else if type = RoomType.trap then
      if chance (g i) 3 10 then
        spawnEnemies g (i + 1) enemyRules floorNumber dungeon.difficulty_tier false
      else ([], i + 1)
    else if type = RoomType.boss then
      spawnEnemies g i enemyRules floorNumber dungeon.difficulty_tier true
    else ([], i)
  let i1 := enemiesStep.2
  let trapStep : Option Trap × Nat :=
    if type = RoomType.trap then
      let t := generateTrap g i1 dcRange
      (some t.1, t.2)
    else (none, i1)
  let i2 := trapStep.2
  let chestStep : Option Chest × Nat :=
    if type = RoomType.treasure then
      if chance (g i2) 4 10 then
        let dc := randomDC g (i2 + 1) dcRange.min dcRange.max
        (some { is_opened := false, is_locked := true, lock_dc := some dc.1,
                is_looted := false }, dc.2)
      else
        (some { is_opened := false, is_locked := false, lock_dc := none,
                is_looted := false }, i2 + 1)
    else if type = RoomType.standard ∧ ¬ isEntrance then
      if chance (g i2) 15 100 then
        (some { is_opened := false, is_locked := false, lock_dc := none,
                is_looted := false }, i2 + 1)
      else (none, i2 + 1)
    else (none, i2)
  let i3 := chestStep.2
  let lockStep : Option Lock × Nat :=
    if type = RoomType.locked then
      let dc := randomDC g i3 (dcRange.min + 2) (dcRange.max + 2)
      (some { lock_dc := dc.1, requires_key := false, is_picked := false }, dc.2)
    else (none, i3)
  let i4 := lockStep.2
  let restStep : Option ℚ × Nat :=
    if type = RoomType.rest then
      (some (1 / 5 + (g i4 : ℚ) / (M : ℚ) * (3 / 20)), i4 + 1)
    else (none, i4)
  ({ room_number := room_number
     type := type
     is_cleared := false
     is_accessible := if type = RoomType.locked then false else decide (room_number = 1)
     connections := []
     actions_in_room_count := 0
     geometry_tags := []
     enemies := enemiesStep.1
     chest := chestStep.1
     trap := trapStep.1
     lock := lockStep.1
     rest_heal := restStep.1
     is_exit := isExit
     is_boss_room := isBossRoom }, restStep.2)

/-- Replace the element at index `j` (if any) by `f` of it. -/
def modifyAt (rs : List Room) (j : Nat) (f : Room → Room) : List Room :=
  match rs, j with
  | [], _ => []
  | r :: rest, 0 => f r :: rest
  | r :: rest, Nat.succ j => r :: modifyAt rest j f

/-- `if (!r.connections.includes(n)) r.connections.push(n)`. -/
def addConnection (r : Room) (n : Nat) : Room :=
  if n ∈ r.connections then r else { r with connections := r.connections ++ [n] }

/-- One iteration of the primary linear-path loop of
`generateConnections`: link rooms `j` and `j+1` both ways and reset the
successor's accessibility unless it is locked. -/
def linkStep (rs : List Room) (j : Nat) : List Room :=
  match rs.get? j, rs.get? (j + 1) with
  | some rfrom, some rto =>
    let rs1 := modifyAt rs j (fun r => addConnection r rto.room_number)
    let rs2 := modifyAt rs1 (j + 1) (fun r => addConnection r rfrom.room_number)
    if rto.type ≠ RoomType.locked then
      modifyAt rs2 (j + 1) (fun r => { r with is_accessible := false })
    else rs2
  | _, _ => rs

/-- The primary linear path `1 ↔ 2 ↔ ... ↔ N`. -/
def linkPhase (rs : List Room) : List Room :=
  (List.range (rs.length - 1)).foldl linkStep rs

/-- Push the branch connection `j ↔ target` (both pushes are unconditional
in the source: no duplicate check in the branch loop). -/
def branchApply (rs : List Room) (j target : Nat) : List Room :=
  match rs.get? j, rs.get? target with
  | some rj, some rt =>
    modifyAt (modifyAt rs j (fun r => { r with connections := r.connections ++ [rt.room_number] }))
      target (fun r => { r with connections := r.connections ++ [rj.room_number] })
  | _, _ => rs

/-- One iteration of the optional-branch loop: with probability 0.2,
connect room `j` to a room 2–3 positions ahead. -/
def branchStep (g : Src) (len : Nat) (st : List Room × Nat) (j : Nat) : List Room × Nat :=
  let rs := st.1
  let i := st.2
  if chance (g i) 2 10 then
    let span := min 2 (len - j - 2)
    let target := j + 2 + g (i + 1) * span / M
    if target < len then (branchApply rs j target, i + 2)
    else (rs, i + 2)
  else (rs, i + 1)

/-- The optional-branch loop (`for (let i = 1; i < rooms.length - 2; i++)`). -/
def branchPhase (g : Src) (i : Nat) (rs : List Room) : List Room × Nat :=
  ((List.range (rs.length - 2)).drop 1).foldl (branchStep g rs.length) (rs, i)

/-- `generateConnections(rooms)`: linear path, entrance accessibility,
then optional branches. -/
def generateConnections (g : Src) (i : Nat) (rs : List Room) : List Room × Nat :=
  let rs1 := linkPhase rs
  let rs2 := modifyAt rs1 0 (fun r => { r with is_accessible := true })
  branchPhase g i rs2

/-- The middle-room loop of `generateFloor` (`for (i = 2; i < roomCount; i++)`),
building `count` rooms starting at room number `cur`; room 2 is never
`locked`. -/
def buildMiddleRooms (g : Src) (dungeon : Dungeon) (floorNumber : Nat)
    (enemyRules : List EnemyRule) : Nat → Nat → Nat → List Room × Nat
  | i, _, 0 => ([], i)
  | i, cur, n + 1 =>
    let pick := pickRoomType g i floorNumber
    let ty := if cur = 2 ∧ pick.1 = RoomType.locked then RoomType.standard else pick.1
    let rm := createRoom g pick.2 cur ty dungeon.dc_range floorNumber enemyRules false dungeon
      false false
    let rest := buildMiddleRooms g dungeon floorNumber enemyRules rm.2 (cur + 1) n
    (rm.1 :: rest.1, rest.2)

/-- `generateFloor({dungeon, floorNumber, isFinalFloor, enemyRules})`. -/
def generateFloor (g : Src) (i : Nat) (dungeon : Dungeon) (floorNumber : Nat)
    (isFinalFloor : Bool) (enemyRules : List EnemyRule) : FloorMap × Nat :=
  let dcRange := dungeon.dc_range
  let baseRoomCount := 4 + floorNumber / 2
  let r3 := roll g i 3
  let roomCount := baseRoomCount + r3.1 - 1
  let room1 := createRoom g r3.2 1 RoomType.standard dcRange floorNumber enemyRules true dungeon
    false false
  let middle := buildMiddleRooms g dungeon floorNumber enemyRules room1.2 2 (roomCount - 2)
  let lastRoom :=
    if isFinalFloor then
      createRoom g middle.2 roomCount RoomType.boss dcRange floorNumber enemyRules false dungeon
        true false
    else
      createRoom g middle.2 roomCount RoomType.standard dcRange floorNumber enemyRules false
        dungeon false true
  let rooms := room1.1 :: middle.1 ++ [lastRoom.1]
  let connected := generateConnections g lastRoom.2 rooms
  (⟨connected.1⟩, connected.2)

/-- `getCurrentRoom(floorMap, roomNumber)` / the `find` by room number. -/
def findRoom (fm : FloorMap) (n : Nat) : Option Room :=
  fm.rooms.find? (fun r => r.room_number == n)

/-- Replace the first room with number `n` (JS `find` returns a live
reference that is then mutated). -/
def updateFirst (rs : List Room) (n : Nat) (f : Room → Room) : List Room :=
  match rs with
  | [] => []
  | r :: rest => if r.room_number = n then f r :: rest else r :: updateFirst rest n f

/-- The unlock loop of `clearRoom`: walk the cleared room's connection
list, making each not-yet-accessible non-locked connected room
accessible and collecting its number. -/
def clearLoop (rs : List Room) : List Nat → List Room × List Nat
  | [] => (rs, [])
  | c :: rest =>
    match rs.find? (fun r => r.room_number == c) with
    | some conn =>
      if conn.is_accessible = false ∧ conn.type ≠ RoomType.locked then
        let rs1 := updateFirst rs c (fun r => { r with is_accessible := true })
        let res := clearLoop rs1 rest
        (res.1, c :: res.2)
      else clearLoop rs rest
    | none => clearLoop rs rest

/-- `clearRoom(floorMap, roomNumber)`: mark the room cleared and unlock
its non-locked connections; returns the new map and the newly accessible
room numbers. -/
def clearRoom (fm : FloorMap) (roomNumber : Nat) : FloorMap × List Nat :=
  match findRoom fm roomNumber with
  | none => (fm, [])
  | some room =>
    let rs1 := updateFirst fm.rooms roomNumber (fun r => { r with is_cleared := true })
    let res := clearLoop rs1 room.connections
    (⟨res.1⟩, res.2)

/-- `unlockRoom(floorMap, roomNumber)`: make the room accessible and mark
its lock picked. -/
def unlockRoom (fm : FloorMap) (roomNumber : Nat) : FloorMap :=
  match findRoom fm roomNumber with
  | none => fm
  | some _ =>
    ⟨updateFirst fm.rooms roomNumber (fun r =>
      { r with is_accessible := true,
               lock := r.lock.map (fun l => { l with is_picked := true }) })⟩

/-- A floor-map mutation: either `clearRoom` or `unlockRoom`. -/
inductive FloorOp
  | clear (n : Nat)
  | unlock (n : Nat)
  deriving DecidableEq, Repr

/-- Apply one floor-map mutation. -/
def applyOp (fm : FloorMap) : FloorOp → FloorMap
  | .clear n => (clearRoom fm n).1
  | .unlock n => unlockRoom fm n

/-- Apply a sequence of floor-map mutations in order. -/
def applyOps (fm : FloorMap) (ops : List FloorOp) : FloorMap :=
  ops.foldl applyOp fm

/-- Room `b` is listed among room `a`'s connections. -/
def Adjacent (fm : FloorMap) (a b : Nat) : Prop :=
  ∃ r, findRoom fm a = some r ∧ b ∈ r.connections

/-- A path of connections exists from room 1 to room `n`. -/
def ReachableFromEntrance (fm : FloorMap) (n : Nat) : Prop :=
  Relation.ReflTransGen (Adjacent fm) 1 n

/-- The room graph is connected: every room is reachable from room 1. -/
def Connected (fm : FloorMap) : Prop :=
  ∀ r ∈ fm.rooms, ReachableFromEntrance fm r.room_number

/-- Pointwise evolution of a room list: length, room numbers and types are
preserved and connection lists only grow. -/
def RoomsEvolve (rs rs' : List Room) : Prop :=
  rs'.length = rs.length ∧
  ∀ j r, rs.get? j = some r → ∃ r', rs'.get? j = some r' ∧
    r'.room_number = r.room_number ∧ r'.type = r.type ∧
    ∀ c, c ∈ r.connections → c ∈ r'.connections

/-- Every locked room is inaccessible. -/
def LockedInacc (rs : List Room) : Prop :=
  ∀ r ∈ rs, r.type = RoomType.locked → r.is_accessible = false

/-- The room at index `j` lists the number of the room at index `j+1`
among its connections. -/
def SuccEdge (rs : List Room) (j : Nat) : Prop :=
  ∀ r r', rs.get? j = some r → rs.get? (j + 1) = some r' →
    r'.room_number ∈ r.connections

/-- Pointwise: every room only had entries appended to its connection
list (the shape of the optional-branch loop). -/
def ConnExtendList (rs rs' : List Room) : Prop :=
  rs'.length = rs.length ∧
  ∀ j r, rs.get? j = some r → ∃ extra,
    rs'.get? j = some { r with connections := r.connections ++ extra }

/-- The structural invariant of a generated floor map that survives
`clearRoom` / `unlockRoom`: at least two rooms, numbered 1..N in order,
the primary path edges present, and the entrance accessible. -/
def CoreInv (fm : FloorMap) : Prop :=
  2 ≤ fm.rooms.length ∧
  fm.rooms.map Room.room_number = List.range' 1 fm.rooms.length ∧
  (∀ j, j + 1 < fm.rooms.length → SuccEdge fm.rooms j) ∧
  (∃ r0, fm.rooms.get? 0 = some r0 ∧ r0.is_accessible = true)

/-- How one `clearRoom`/`unlockRoom` changes a single room: number, type
and connections are untouched; accessibility can only be switched on, and
only for a non-locked room or a room explicitly named by an unlock. -/
def OpsEvolve (ops : List FloorOp) (r r' : Room) : Prop :=
  r'.room_number = r.room_number ∧ r'.type = r.type ∧ r'.connections = r.connections ∧
  (r'.is_accessible = r.is_accessible ∨ (r'.is_accessible = true ∧
    (r.type ≠ RoomType.locked ∨ FloorOp.unlock r.room_number ∈ ops)))

/-- A concrete dungeon row used by the concrete-input theorems. -/
def sampleDungeon : Dungeon :=
  { id := 1
    dc_range := { min := 10, max := 14 }
    difficulty_tier := 1
    floor_count := 3
    entry_cost := 25 }

/-- A bare room used by the concrete-input theorems. -/
def sampleRoom (n : Nat) (ty : RoomType) (acc : Bool) (conns : List Nat) : Room :=
  { room_number := n
    type := ty
    is_cleared := false
    is_accessible := acc
    connections := conns
    actions_in_room_count := 0
    geometry_tags := []
    enemies := []
    chest := none
    trap := none
    lock := none
    rest_heal := none
    is_exit := false
    is_boss_room := false }

/-- A tiny three-room floor map used by the concrete-input theorems:
an accessible entrance connected to a standard room and a locked room. -/
def sampleMap : FloorMap :=
  ⟨[sampleRoom 1 RoomType.standard true [2, 3],
    sampleRoom 2 RoomType.standard false [1],
    sampleRoom 3 RoomType.locked false [1]]⟩

-- ════════════════ LOOT — `src/engine/loot.js` ════════════════

/-- A `loot_rules` row joined with its item (`getLootRulesForSource`). -/
structure LootRule where
  item_id : Int
  item_name : String
  item_type : String
  rarity : Option String
  base_value : Option Int
  drop_type : String
  base_weight : Int
  condition_type : String
  condition_skill_name : Option String
  condition_skill_min : Option Int
  condition_min_completions : Option Int
  condition_requires_item_id : Option Int
  requires_perception : Bool
  perception_dc : Option Int
  deriving DecidableEq, Repr

/-- The optional `context` argument of `resolveLoot`. -/
structure LootContext where
  playerSkills : Option (List (String × Int))
  dungeonCompletions : Option Int
  playerItemIds : Option (List Int)
  perceptionLevel : Option Int
  deriving DecidableEq, Repr

/-- `resolveLoot({})`: the empty context. -/
def emptyLootContext : LootContext :=
  { playerSkills := none, dungeonCompletions := none, playerItemIds := none,
    perceptionLevel := none }

/-- A drop record (`makeDrop`). -/
structure Drop where
  item_id : Int
  item_name : String
  item_type : String
  rarity : String
  base_value : Int
  quantity : Int
  was_hidden : Bool
  deriving DecidableEq, Repr

/-- `checkCondition(rule, context)` (`loot.js`), with the JS `||`
defaults (`condition_skill_min || 0`, `dungeonCompletions || 0`) and
optional-chaining semantics on the context fields. -/
def checkCondition (rule : LootRule) (ctx : LootContext) : Bool :=
  if rule.condition_type = "none" then true
  else if rule.condition_type = "min_skill" then
    match ctx.playerSkills, rule.condition_skill_name with
    | some skills, some name =>
      match skills.find? (fun p => p.1 == name) with
      | some p => rule.condition_skill_min.getD 0 ≤ p.2
      | none => false
    | _, _ => false
  else if rule.condition_type = "min_completions" then
    rule.condition_min_completions.getD 0 ≤ ctx.dungeonCompletions.getD 0
  else if rule.condition_type = "has_item" then
    match rule.condition_requires_item_id, ctx.playerItemIds with
    | some id, some l => l.contains id
    | _, _ => false
  else if rule.condition_type = "has_not_item" then
    match rule.condition_requires_item_id, ctx.playerItemIds with
    | some id, some l => !(l.contains id)
    | _, _ => true
  else true

/-- `context.perceptionLevel || 1`. -/
def perceptionValue (ctx : LootContext) : Int :=
  match ctx.perceptionLevel with
  | none => 1
  | some v => if v = 0 then 1 else v

/-- `rule.perception_dc || 10`. -/
def perceptionDcValue (rule : LootRule) : Int :=
  match rule.perception_dc with
  | none => 10
  | some v => if v = 0 then 10 else v

/-- `checkPerception(rule, context)`: the simplified passive check
`perceptionLevel ≥ perception_dc − 5`. -/
def checkPerception (rule : LootRule) (ctx : LootContext) : Bool :=
  if !rule.requires_perception then true
  else perceptionDcValue rule - 5 ≤ perceptionValue ctx

/-- `makeDrop(rule, wasHidden)` with `rule.rarity || 'common'` and
`rule.base_value || 0`. -/
def makeDrop (rule : LootRule) (wasHidden : Bool) : Drop :=
  { item_id := rule.item_id
    item_name := rule.item_name
    item_type := rule.item_type
    rarity := (match rule.rarity with
      | none => "common"
      | some s => if s = "" then "common" else s)
    base_value := rule.base_value.getD 0
    quantity := 1
    was_hidden := wasHidden }

/-- A rule fires (condition holds and any perception gate is met):
`checkCondition(rule) && !(rule.requires_perception && !checkPerception(rule))`. -/
def ruleEligible (rule : LootRule) (ctx : LootContext) : Bool :=
  checkCondition rule ctx && (!rule.requires_perception || checkPerception rule ctx)

/-- The guaranteed-drops loop of `resolveLoot`. -/
def guaranteedDrops (rules : List LootRule) (ctx : LootContext) : List Drop :=
  ((rules.filter (fun r => r.drop_type == "guaranteed")).filter
    (fun r => ruleEligible r ctx)).map (fun r => makeDrop r r.requires_perception)

/-- The weighted-draw loop of `resolveLoot`: up to `count` draws from the
eligible pool, appending a drop unless its item identifier is already in
the list. -/
def weightedPhase (g : Src) (elig : List LootRule) : Nat → Nat → List Drop → List Drop × Nat
  | i, 0, drops => (drops, i)
  | i, k + 1, drops =>
    let wr := weightedRandom g i (elig.map (fun r => (r.base_weight, r)))
    match wr.1 with
    | some sel =>
      if drops.any (fun d => d.item_id == sel.item_id) then
        weightedPhase g elig wr.2 k drops
      else
        weightedPhase g elig wr.2 k (drops ++ [makeDrop sel sel.requires_perception])
    | none => weightedPhase g elig wr.2 k drops

/-- The eligible weighted pool of `resolveLoot`. -/
def eligWeighted (rules : List LootRule) (ctx : LootContext) : List LootRule :=
  (rules.filter (fun r => r.drop_type == "weighted")).filter (fun r => ruleEligible r ctx)

/-- `resolveLoot(sourceType, sourceId, context)` (`loot.js`), with the
rule rows fetched by `getLootRulesForSource(sourceType, sourceId)` passed
in (persistence is outside the model). -/
def resolveLoot (g : Src) (i : Nat) (sourceType : String) (rules : List LootRule)
    (ctx : LootContext) : List Drop × Nat :=
  if rules.isEmpty then ([], i)
  else if (eligWeighted rules ctx).isEmpty then (guaranteedDrops rules ctx, i)
  else
    weightedPhase g (eligWeighted rules ctx) i
      (if sourceType = "chest" ∨ sourceType = "boss" then 2 else 1)
      (guaranteedDrops rules ctx)

/-- `rollGoldDrop(min, max)` (`loot.js`). -/
def rollGoldDrop (g : Src) (i : Nat) (mn mx : Int) : Int × Nat :=
  if mx ≤ mn then (mn, i)
  else (mn + ((g i : Int) * (mx - mn + 1)).fdiv (M : Int), i + 1)

-- ════════════════ COMBAT — `src/engine/combat.js` ════════════════

/-- The mutable room state of a run (`room_state` JSON). -/
structure RoomState where
  is_combat_active : Bool
  round_number : Int
  enemies : List Enemy
  allies : List String
  npcs_present : List String
  deriving DecidableEq, Repr

/-- `enemy.resistances?.[damageType] ?? 1.0`. -/
def enemyResistanceFor (e : Enemy) (damageType : String) : ℚ :=
  match e.resistances.find? (fun p => p.1 == damageType) with
  | some p => p.2
  | none => 1

/-- The net damage `damageEnemy` applies: resistance multiplier with JS
rounding, then armor as flat reduction with a minimum of 1. -/
def appliedDamage (e : Enemy) (damage : ℚ) (damageType : String) : Int :=
  max 1 (jround (damage * enemyResistanceFor e damageType) - e.armor)

/-- The result record of `damageEnemy`. -/
structure DamageEnemyResult where
  damageDealt : Int
  rawDamage : ℚ
  resistanceApplied : Bool
  resistanceMultiplier : ℚ
  armorReduced : Int
  enemyDied : Bool
  loot : List Drop
  goldDrop : Int
  xpReward : Int
  deriving DecidableEq, Repr

/-- `damageEnemy(enemy, damage, damageType, player, roomState)`
(`combat.js`).  The JS `enemy` argument is a live reference into
`roomState.enemies`; here it is the enemy at index `idx` and the mutation
is a `List.set` at that index.  `lootRules` are the rows
`getLootRulesForSource` would return for the kill source.  An
out-of-range index leaves the state unchanged (the JS would have thrown
on a dangling reference; theorems always supply a valid index). -/
def damageEnemy (g : Src) (i : Nat) (rs : RoomState) (idx : Nat) (damage : ℚ)
    (damageType : String) (lootRules : List LootRule) :
    RoomState × DamageEnemyResult × Nat :=
  match rs.enemies.get? idx with
  | none =>
    (rs, { damageDealt := 0, rawDamage := damage, resistanceApplied := false,
           resistanceMultiplier := 1, armorReduced := 0, enemyDied := false,
           loot := [], goldDrop := 0, xpReward := 0 }, i)
  | some e =>
    let resistance := enemyResistanceFor e damageType
    let afterResistance := jround (damage * resistance)
    let afterArmor := max 1 (afterResistance - e.armor)
    let e1 := { e with hp_current := e.hp_current - afterArmor }
    let base : DamageEnemyResult :=
      { damageDealt := afterArmor
        rawDamage := damage
        resistanceApplied := decide (resistance ≠ 1)
        resistanceMultiplier := resistance
        armorReduced := max 0 (afterResistance - afterArmor)
        enemyDied := false
        loot := []
        goldDrop := 0
        xpReward := 0 }
    if e1.hp_current ≤ 0 then
      let e2 := { e1 with hp_current := 0, is_dead := true }
      let sourceType := if e.is_boss ≠ 0 then "boss" else "enemy_kill"
      let lootStep := resolveLoot g i sourceType lootRules emptyLootContext
      let goldStep := rollGoldDrop g lootStep.2 e.gold_reward_min e.gold_reward_max
      let enemies1 := rs.enemies.set idx e2
      let allDead := enemies1.all (fun x => x.is_dead)
      ({ rs with enemies := enemies1,
                 is_combat_active := if allDead then false else rs.is_combat_active },
       { base with enemyDied := true, loot := lootStep.1, goldDrop := goldStep.1,
                   xpReward := e.xp_reward }, goldStep.2)
    else
      ({ rs with enemies := rs.enemies.set idx e1 }, base, i)

-- ════════════════ ACTION PROCESSOR — `src/engine/action-processor.js` ════════════════

/-- Run lifecycle status. -/
inductive RunStatus
  | active
  | processing
  | completed
  | dead
  | abandoned
  deriving DecidableEq, Repr

/-- The `active_runs` fields `processAction`'s locking logic touches. -/
structure RunRec where
  id : Int
  status : RunStatus
  pending_action_text : Option String
  deriving DecidableEq, Repr

/-- The flags of the turn result that determine the final status. -/
structure TurnOutcome where
  runDied : Bool
  runComplete : Bool
  deriving DecidableEq, Repr

/-- `processAction(playerId, actionText)` (`action-processor.js`),
abstracted over the body of its `try` block: `turnBody` stands for the
whole turn (resolution, persistence, context update and logging, lines
156–361), taking the run record as persisted on entry to the turn
(status `processing`, pending action recorded) and returning either the
turn outcome together with the run record as the body leaves it
persisted, or the error it throws.  The wrapper itself — the
no-run / not-active rejections, the `processing` lock acquisition, and
the catch that restores `active` and clears the pending-action marker —
is modelled exactly. -/
def processAction (runRow : Option RunRec) (actionText : String)
    (turnBody : RunRec → Except String (TurnOutcome × RunRec)) :
    Option RunRec × Except String TurnOutcome :=
  match runRow with
  | none => (none, Except.error "No active run.")
  | some run =>
    if run.status ≠ RunStatus.active then (some run, Except.error "Run is not active.")
    else
      let run1 := { run with status := RunStatus.processing,
                             pending_action_text := some actionText }
      match turnBody run1 with
      | Except.error e =>
        (some { run1 with status := RunStatus.active, pending_action_text := none },
         Except.error e)
      | Except.ok out => (some out.2, Except.ok out.1)

/-- A concrete idle run used by the concrete-input theorems. -/
def sampleActiveRun : RunRec :=
  { id := 1, status := RunStatus.active, pending_action_text := none }

-- ════════════════ SKILL-CHECK ACTIONS — `processSkillCheck` ════════════════

/-- An inventory row as `getInventory` returns it (row id, joined item
name, quantity). -/
structure InvItem where
  id : Int
  item_name : String
  quantity : Int
  deriving DecidableEq, Repr

/-- `queries.removeItem(inventoryRowId, quantity)`: delete the row when
its quantity would drop to zero or below, otherwise decrement.  The SQL
touches the rows with the given primary key (unique in the database). -/
def removeItem (inv : List InvItem) (rowId : Int) (qty : Int) : List InvItem :=
  match inv.find? (fun it => it.id == rowId) with
  | none => inv
  | some row =>
    if row.quantity ≤ qty then inv.filter (fun it => !(it.id == rowId))
    else inv.map (fun it =>
      if it.id == rowId then { it with quantity := it.quantity - qty } else it)

/-- What a lockpicking action is aimed at (`lockpickTarget`). -/
inductive LockpickTarget
  | current_room
  | chest
  | adjacent_room (n : Nat)
  deriving DecidableEq, Repr

/-- The adjacent-locked-room scan of `processSkillCheck`: the first
connected room that is locked, inaccessible and has a lock. -/
def findAdjacentLocked (fm : FloorMap) : List Nat → Option (Nat × Int)
  | [] => none
  | c :: rest =>
    match findRoom fm c with
    | some cr =>
      if cr.type = RoomType.locked ∧ cr.is_accessible = false ∧ cr.lock.isSome then
        some (c, (match cr.lock with | some l => l.lock_dc | none => 0))
      else findAdjacentLocked fm rest
    | none => findAdjacentLocked fm rest

/-- The DC / lockpick-target determination of `processSkillCheck`
(lines 667–692), consuming one random numerator exactly where the source
calls `randomDC`.  A stored `lock_dc` of `null` reads as 0 (JS `>=`
coerces `null` to 0); generated locks always carry a DC. -/
def skillCheckDcTarget (g : Src) (i : Nat) (skillName : String) (fm : FloorMap)
    (room : Room) (dungeon : Dungeon) : (Int × Option LockpickTarget) × Nat :=
  if skillName = "lockpicking" ∧ room.type = RoomType.locked ∧ room.lock.isSome then
    (((match room.lock with | some l => l.lock_dc | none => 0), some LockpickTarget.current_room), i)
  else if skillName = "lockpicking" ∧ (room.chest.map Chest.is_locked).getD false then
    (((match room.chest with
       | some c => c.lock_dc.getD 0
       | none => 0), some LockpickTarget.chest), i)
  else if skillName = "lockpicking" then
    match findAdjacentLocked fm room.connections with
    | some p =>
      if p.2 = 0 then
        let dc := randomDC g i dungeon.dc_range.min dungeon.dc_range.max
        ((dc.1, some (LockpickTarget.adjacent_room p.1)), dc.2)
      else ((p.2, some (LockpickTarget.adjacent_room p.1)), i)
    | none =>
      let dc := randomDC g i dungeon.dc_range.min dungeon.dc_range.max
      ((dc.1, none), dc.2)
  else if (match room.trap with | some t => !t.is_disarmed | none => false) &&
      skillName == "perception" then
    (((match room.trap with | some t => t.dc | none => 0), none), i)
  else
    let dc := randomDC g i dungeon.dc_range.min dungeon.dc_range.max
    ((dc.1, none), dc.2)

/-- `getPerceptionPerkBonuses(runStats)`: lit-torch +3, glowing fungus +1. -/
def getPerceptionPerkBonuses (torchLit fungusLit : Bool) : List PerkBonus :=
  (if torchLit then [{ name := "Torch", effect := some 3 }] else []) ++
  (if fungusLit then [{ name := "Glowing Fungus", effect := some 1 }] else [])

/-- Rewrite one room of a floor map in place. -/
def updateRoomIn (fm : FloorMap) (n : Nat) (f : Room → Room) : FloorMap :=
  ⟨updateFirst fm.rooms n f⟩

/-- The outcome of `processChestLoot`. -/
structure ChestLootReport where
  noChest : Bool
  chestLocked : Bool
  chestAlreadyLooted : Bool
  chestLooted : Bool
  loot : List Drop
  gold : Int
  deriving DecidableEq, Repr

/-- An inert `ChestLootReport`. -/
def emptyChestReport : ChestLootReport :=
  { noChest := false, chestLocked := false, chestAlreadyLooted := false,
    chestLooted := false, loot := [], gold := 0 }

/-- `processChestLoot(result, currentRoom, dungeon, player)`: flags for a
missing / locked / exhausted chest, otherwise mark it opened and looted,
resolve chest loot (source `chest`, passive perception 1) and roll
15–40 gold.  `chestRules` are the `loot_rules` rows for the dungeon's
chest source. -/
def processChestLoot (g : Src) (i : Nat) (fm : FloorMap) (roomNumber : Nat)
    (chestRules : List LootRule) : FloorMap × ChestLootReport × Nat :=
  match findRoom fm roomNumber with
  | none => (fm, { emptyChestReport with noChest := true }, i)
  | some room =>
    match room.chest with
    | none => (fm, { emptyChestReport with noChest := true }, i)
    | some chest =>
      if chest.is_locked then (fm, { emptyChestReport with chestLocked := true }, i)
      else if chest.is_looted then
        (fm, { emptyChestReport with chestAlreadyLooted := true }, i)
      else
        let fm1 := updateRoomIn fm roomNumber (fun r =>
          { r with chest := r.chest.map (fun c =>
              { c with is_opened := true, is_looted := true }) })
        let lootStep := resolveLoot g i "chest" chestRules
          { emptyLootContext with perceptionLevel := some 1 }
        let goldStep := rollGoldDrop g lootStep.2 15 40
        (fm1, { emptyChestReport with chestLooted := true, loot := lootStep.1,
                                      gold := goldStep.1 }, goldStep.2)

/-- What one `processSkillCheck` call did to the state it touches. -/
structure SkillCheckStepResult where
  floorMap : FloorMap
  roomState : RoomState
  inventory : List InvItem
  noLockpick : Bool
  lockpickConsumed : Bool
  checks : List DiceResult
  lootDrops : List Drop
  goldGained : Int
  chestReport : ChestLootReport
  hpChange : Int
  updatedPlayerHp : Int
  xpEvent : Option (String × Int × Outcome)
  rngIndex : Nat
  deriving DecidableEq, Repr

/-- The `inventory.find(i => i.item_name === "Thieves\' Pick" && i.quantity > 0)`
lookup, performed only when a lockpicking action targets a lock. -/
def lockpickPick (skillName : String) (tgt : Option LockpickTarget)
    (inventory : List InvItem) : Option InvItem :=
  if skillName = "lockpicking" ∧ tgt.isSome then
    inventory.find? (fun it => it.item_name == "Thieves' Pick" && 0 < it.quantity)
  else none

/-- The early-return result of `processSkillCheck` when no Thieves' Pick
is in the inventory: `result.noLockpick = true`, no check rolled, no
state touched. -/
def noPickResult (fm : FloorMap) (rst : RoomState) (inventory : List InvItem)
    (playerHp : Int) (i1 : Nat) : SkillCheckStepResult :=
  { floorMap := fm, roomState := rst, inventory := inventory, noLockpick := true,
    lockpickConsumed := false, checks := [], lootDrops := [], goldGained := 0,
    chestReport := emptyChestReport, hpChange := 0, updatedPlayerHp := playerHp,
    xpEvent := none, rngIndex := i1 }

/-- The rest of `processSkillCheck` once the Thieves'-Pick gate has been
passed: roll the d20 skill check, apply the unlock / stealth effects on a
pass, handle the room trap, and record the XP event. -/
def skillCheckAfterGate (g : Src) (i1 : Nat) (skillName : String) (fm : FloorMap)
    (roomNumber : Nat) (room : Room) (dc : Int) (lockpickTarget : Option LockpickTarget)
    (rst : RoomState) (inventory1 : List InvItem) (consumed : Bool) (baseStats : BaseStats)
    (skills : List (String × Int)) (chestRules : List LootRule) (torchLit fungusLit : Bool)
    (playerHp : Int) : SkillCheckStepResult :=
  let checkStep := skillCheck g i1
    { skillName := skillName
      dc := dc
      baseStats := some baseStats
      skills := skills
      perkBonuses := if skillName = "perception" then
          getPerceptionPerkBonuses torchLit fungusLit
        else [] }
  let check := checkStep.1
  let i2 := checkStep.2
  let effectStep : FloorMap × RoomState × ChestLootReport × List Drop × Int × Nat :=
    if check.passed then
      if skillName = "lockpicking" then
        if lockpickTarget = some LockpickTarget.current_room ∧ room.lock.isSome then
          (unlockRoom fm roomNumber, rst, emptyChestReport, [], 0, i2)
        else if lockpickTarget = some LockpickTarget.chest ∧
            (room.chest.map Chest.is_locked).getD false then
          let fmUnlocked := updateRoomIn fm roomNumber (fun r =>
            { r with chest := r.chest.map (fun c => { c with is_locked := false }) })
          let chestStep := processChestLoot g i2 fmUnlocked roomNumber chestRules
          (chestStep.1, rst, chestStep.2.1, chestStep.2.1.loot, chestStep.2.1.gold,
            chestStep.2.2)
        else
          match lockpickTarget with
          | some (LockpickTarget.adjacent_room n) =>
            (unlockRoom fm n, rst, emptyChestReport, [], 0, i2)
          | _ => (fm, rst, emptyChestReport, [], 0, i2)
      else if skillName = "stealth" then
        (fm, { rst with enemies := rst.enemies.map (fun e =>
          if e.is_dead then e else { e with awareness := "idle" }) },
          emptyChestReport, [], 0, i2)
      else (fm, rst, emptyChestReport, [], 0, i2)
    else (fm, rst, emptyChestReport, [], 0, i2)
  let fm2 := effectStep.1
  let trapStep : FloorMap × Int :=
    match room.trap with
    | some t =>
      if !t.is_disarmed then
        if skillName = "perception" ∧ check.passed = true then
          (updateRoomIn fm2 roomNumber (fun r =>
            { r with trap := r.trap.map (fun tr => { tr with is_disarmed := true }) }), 0)
        else if check.passed = false then
          (updateRoomIn fm2 roomNumber (fun r =>
            { r with trap := r.trap.map (fun tr => { tr with is_triggered := true }) }),
           t.damage)
        else (fm2, 0)
      else (fm2, 0)
    | none => (fm2, 0)
  { floorMap := trapStep.1
    roomState := effectStep.2.1
    inventory := inventory1
    noLockpick := false
    lockpickConsumed := consumed
    checks := [check]
    lootDrops := effectStep.2.2.2.1
    goldGained := effectStep.2.2.2.2.1
    chestReport := effectStep.2.2.1
    hpChange := -trapStep.2
    updatedPlayerHp := playerHp - trapStep.2
    xpEvent := some (skillName, 10, check.outcome)
    rngIndex := effectStep.2.2.2.2.2 }

/-- The body of `processSkillCheck` for a resolved current room: DC /
lockpick-target determination, then the Thieves'-Pick gate — with no
pick in the inventory the action only reports the missing pick (no d20
is rolled); otherwise one pick is removed from the inventory before the
check is rolled. -/
def processSkillCheckBody (g : Src) (i : Nat) (skillName : String) (fm : FloorMap)
    (roomNumber : Nat) (room : Room) (rst : RoomState) (inventory : List InvItem)
    (baseStats : BaseStats) (skills : List (String × Int)) (dungeon : Dungeon)
    (chestRules : List LootRule) (torchLit fungusLit : Bool) (playerHp : Int) :
    SkillCheckStepResult :=
  if skillName = "lockpicking" ∧
      (skillCheckDcTarget g i skillName fm room dungeon).1.2.isSome ∧
      (lockpickPick skillName (skillCheckDcTarget g i skillName fm room dungeon).1.2
        inventory).isNone then
    noPickResult fm rst inventory playerHp (skillCheckDcTarget g i skillName fm room dungeon).2
  else
    skillCheckAfterGate g (skillCheckDcTarget g i skillName fm room dungeon).2 skillName fm
      roomNumber room (skillCheckDcTarget g i skillName fm room dungeon).1.1
      (skillCheckDcTarget g i skillName fm room dungeon).1.2 rst
      (match lockpickPick skillName (skillCheckDcTarget g i skillName fm room dungeon).1.2
          inventory with
        | some pick => removeItem inventory pick.id 1
        | none => inventory)
      (lockpickPick skillName (skillCheckDcTarget g i skillName fm room dungeon).1.2
        inventory).isSome
      baseStats skills chestRules torchLit fungusLit playerHp

/-- `processSkillCheck` (`action-processor.js` lines 665–760); the
persistence-bound `distributeXp(skillName, 10, outcome)` call is
recorded as the `xpEvent` datum.  The current room is the floor-map room
numbered `roomNumber`; a missing room cannot occur in the caller (which
already resolved it) and returns an inert result. -/
def processSkillCheck (g : Src) (i : Nat) (intentSkill : Option String) (fm : FloorMap)
    (roomNumber : Nat) (rst : RoomState) (inventory : List InvItem)
    (baseStats : BaseStats) (skills : List (String × Int)) (dungeon : Dungeon)
    (chestRules : List LootRule) (torchLit fungusLit : Bool) (playerHp : Int) :
    SkillCheckStepResult :=
  match findRoom fm roomNumber with
  | none =>
    { floorMap := fm, roomState := rst, inventory := inventory, noLockpick := false,
      lockpickConsumed := false, checks := [], lootDrops := [], goldGained := 0,
      chestReport := emptyChestReport, hpChange := 0, updatedPlayerHp := playerHp,
      xpEvent := none, rngIndex := i }
  | some room =>
    processSkillCheckBody g i (intentSkill.getD "perception") fm roomNumber room rst
      inventory baseStats skills dungeon chestRules torchLit fungusLit playerHp

/-- A two-room map with a pickable adjacent locked room, used by the
concrete-input theorems. -/
def lockpickMap : FloorMap :=
  ⟨[sampleRoom 1 RoomType.standard true [2],
    { sampleRoom 2 RoomType.locked false [1] with
        lock := some { lock_dc := 12, requires_key := false, is_picked := false } }]⟩

/-- Two identical guaranteed rules for the same item (the schema has no
uniqueness constraint on `(source_type, source_id, item_id)`). -/
def dupGemRule : LootRule :=
  { item_id := 7
    item_name := "Glittering Gem"
    item_type := "treasure"
    rarity := none
    base_value := none
    drop_type := "guaranteed"
    base_weight := 0
    condition_type := "none"
    condition_skill_name := none
    condition_skill_min := none
    condition_min_completions := none
    condition_requires_item_id := none
    requires_perception := false
    perception_dc := none }

/-- Total quantity of Thieves' Picks across all inventory rows. -/
def pickTotal (inv : List InvItem) : Int :=
  ((inv.filter (fun it => it.item_name == "Thieves' Pick")).map InvItem.quantity).sum

/-- Flat base stats used by the concrete-input theorems. -/
def sampleStats : BaseStats :=
  { strength := 10, dexterity := 10, constitution := 10, intelligence := 10,
    wisdom := 10, charisma := 10 }

/-- A concrete enemy used by the concrete-input theorems. -/
def sampleEnemy : Enemy :=
  { enemy_id := 3, instance_roll := 42, name := "Cave Rat", hp_current := 5, hp_max := 5,
    damage := 2, armor := 0, abilities := [], resistances := [], weaknesses := [],
    effect_immunities := [], is_boss := 0, is_dead := false, xp_reward := 10,
    gold_reward_min := 0, gold_reward_max := 0, ai_descriptor := "skittish",
    awareness := "hostile", position := "near", position_zone := "melee",
    dc_modifier := 0, skip_next_action := false, ability_cooldowns := [],
    ability_charges := [] }

/-- A concrete one-enemy combat state used by the concrete-input theorems. -/
def sampleCombatState : RoomState :=
  { is_combat_active := true, round_number := 1, enemies := [sampleEnemy],
    allies := [], npcs_present := [] }

end Delve

namespace Delve

-- ════════════════ THEOREMS: DICE ════════════════

theorem roll_pos (g : Src) (i : Nat) (sides : Nat) : 1 ≤ (roll g i sides).1 := by
  simp [roll]

/-- C1: every `skillCheck` result satisfies
`final_total = base_roll + stat_modifier + ⌊skillLevel/10⌋ + Σ perk effects`,
its outcome is classified by the fixed priority order (roll ≥ critRange →
critical_success; roll = 1 → critical_failure; total ≥ dc → success;
total ≥ dc − 2 → partial; else failure), and `passed` holds exactly for
success, critical_success and partial. -/
theorem skillCheck_matches_spec (g : Src) (i : Nat) (p : SkillCheckParams) :
    let r := (skillCheck g i p).1
    r.final_total = r.base_roll + r.stat_modifier + r.skill_level.fdiv 10 +
      (p.perkBonuses.map (fun b => b.effect.getD 0)).sum ∧
    r.outcome = specOutcome r.base_roll p.critRange r.final_total p.dc ∧
    (r.passed = true ↔ (r.outcome = Outcome.success ∨
      r.outcome = Outcome.critical_success ∨ r.outcome = Outcome.partial_success)) := by
  refine ⟨rfl, rfl, ?_⟩
  constructor
  · exact fun h => of_decide_eq_true h
  · exact fun h => decide_eq_true h

/-- C4: `rollDamage` equals the spec pipeline for some variance
`v ∈ [0.8, 1.2]` — raw damage is `round((base + weaponBonus)·v)`, doubled
on a critical; then the resistance multiplier is applied (with JS
rounding); then armor is subtracted flat with a floor of 1 damage
(`mitigatedDamage ≥ 1`). -/
theorem rollDamage_matches_spec (g : Src) (i : Nat) (b w : ℚ) (crit : Bool)
    (armor : Int) (resist : ℚ) (hg : SrcOk g) :
    ∃ v : ℚ, 4 / 5 ≤ v ∧ v ≤ 6 / 5 ∧
      (rollDamage g i b w crit armor resist).1.rawDamage
        = (if crit then 2 else 1) * jround ((b + w) * v) ∧
      (rollDamage g i b w crit armor resist).1.mitigatedDamage
        = max 1 (jround (((rollDamage g i b w crit armor resist).1.rawDamage : ℚ) * resist)
            - armor) ∧
      1 ≤ (rollDamage g i b w crit armor resist).1.mitigatedDamage := by
  have hM : (0 : ℚ) < (M : ℚ) := by
    have : (0 : Nat) < M := by decide
    exact_mod_cast this
  have hk0 : (0 : ℚ) ≤ (g i : ℚ) := by positivity
  have hkM : (g i : ℚ) < (M : ℚ) := by exact_mod_cast hg i
  refine ⟨damageVariance (g i), ?_, ?_, ?_, ?_, ?_⟩
  · have : (0 : ℚ) ≤ (g i : ℚ) / (M : ℚ) * (2 / 5) := by positivity
    unfold damageVariance
    linarith
  · have hdiv : (g i : ℚ) / (M : ℚ) ≤ 1 := le_of_lt ((div_lt_one hM).mpr hkM)
    have : (g i : ℚ) / (M : ℚ) * (2 / 5) ≤ 2 / 5 := by nlinarith
    unfold damageVariance
    linarith
  · cases crit <;> simp [rollDamage, rollDamageWith, mul_comm]
  · rfl
  · exact le_max_left 1 _

/-- Witness for C4 at a concrete input (base 10, weapon +2, no crit,
armor 3, neutral resistance, all-zero random source). -/
theorem rollDamage_matches_spec_witness :
    ∃ v : ℚ, 4 / 5 ≤ v ∧ v ≤ 6 / 5 ∧
      (rollDamage (fun _ => 0) 0 10 2 false 3 1).1.rawDamage
        = (if false then 2 else 1) * jround ((10 + 2) * v) ∧
      (rollDamage (fun _ => 0) 0 10 2 false 3 1).1.mitigatedDamage
        = max 1 (jround (((rollDamage (fun _ => 0) 0 10 2 false 3 1).1.rawDamage : ℚ) * 1)
            - 3) ∧
      1 ≤ (rollDamage (fun _ => 0) 0 10 2 false 3 1).1.mitigatedDamage :=
  rollDamage_matches_spec (fun _ => 0) 0 10 2 false 3 1 (fun _ => by show (0 : Nat) < M; decide)

theorem roll_le (g : Src) (i : Nat) (sides : Nat) (hg : g i < M) (hs : 0 < sides) :
    (roll g i sides).1 ≤ sides := by
  have h1 : g i * sides < M * sides := Nat.mul_lt_mul_of_pos_right hg hs
  have h : g i * sides / M < sides := Nat.div_lt_of_lt_mul h1
  simp only [roll]
  omega

-- ──────── list surgery lemmas ────────

theorem modifyAt_length (rs : List Room) (j : Nat) (f : Room → Room) :
    (modifyAt rs j f).length = rs.length := by
  induction rs generalizing j with
  | nil => rfl
  | cons r rest ih =>
    cases j with
    | zero => rfl
    | succ j => simp [modifyAt, ih]

theorem get?_modifyAt (rs : List Room) (j k : Nat) (f : Room → Room) :
    (modifyAt rs j f).get? k = if k = j then (rs.get? k).map f else rs.get? k := by
  induction rs generalizing j k with
  | nil => simp [modifyAt]
  | cons r rest ih =>
    cases j with
    | zero =>
      cases k with
      | zero => simp [modifyAt]
      | succ k => simp [modifyAt]
    | succ j =>
      cases k with
      | zero => simp [modifyAt]
      | succ k =>
        simp only [modifyAt, List.get?]
        rw [ih]
        by_cases h : k = j <;> simp [h]

theorem roomsEvolve_refl (rs : List Room) : RoomsEvolve rs rs :=
  ⟨rfl, fun _ r h => ⟨r, h, rfl, rfl, fun _ hc => hc⟩⟩

theorem roomsEvolve_trans {rs₁ rs₂ rs₃ : List Room}
    (h₁ : RoomsEvolve rs₁ rs₂) (h₂ : RoomsEvolve rs₂ rs₃) : RoomsEvolve rs₁ rs₃ := by
  refine ⟨h₂.1.trans h₁.1, fun j r h => ?_⟩
  obtain ⟨r', h', hn, ht, hc⟩ := h₁.2 j r h
  obtain ⟨r'', h'', hn', ht', hc'⟩ := h₂.2 j r' h'
  exact ⟨r'', h'', hn'.trans hn, ht'.trans ht, fun c hc₀ => hc' c (hc c hc₀)⟩

theorem roomsEvolve_modifyAt (rs : List Room) (j : Nat) (f : Room → Room)
    (hf : ∀ r, (f r).room_number = r.room_number ∧ (f r).type = r.type ∧
      ∀ c, c ∈ r.connections → c ∈ (f r).connections) :
    RoomsEvolve rs (modifyAt rs j f) := by
  refine ⟨modifyAt_length rs j f, fun k r h => ?_⟩
  by_cases hk : k = j
  · refine ⟨f r, ?_, (hf r).1, (hf r).2.1, (hf r).2.2⟩
    rw [get?_modifyAt, if_pos hk, h]
    rfl
  · refine ⟨r, ?_, rfl, rfl, fun _ hc => hc⟩
    rw [get?_modifyAt, if_neg hk]
    exact h

theorem succEdge_of_evolve {rs rs' : List Room} (h : RoomsEvolve rs rs') (j : Nat)
    (hj : j + 1 < rs.length) (he : SuccEdge rs j) : SuccEdge rs' j := by
  intro r r' hr hr'
  have hju : j < rs.length := Nat.lt_of_succ_lt hj
  have ha : rs.get? j = some (rs.get ⟨j, hju⟩) := List.get?_eq_get hju
  have hb : rs.get? (j + 1) = some (rs.get ⟨j + 1, hj⟩) := List.get?_eq_get hj
  obtain ⟨a', ha', hna, _, hca⟩ := h.2 j _ ha
  obtain ⟨b', hb', hnb, _, _⟩ := h.2 (j + 1) _ hb
  rw [hr] at ha'
  rw [hr'] at hb'
  cases ha'
  cases hb'
  rw [hnb]
  exact hca _ (he _ _ ha hb)

-- ──────── addConnection and linkStep ────────

theorem addConnection_fields (r : Room) (n : Nat) :
    (addConnection r n).room_number = r.room_number ∧
    (addConnection r n).type = r.type ∧
    (addConnection r n).is_accessible = r.is_accessible ∧
    (addConnection r n).is_cleared = r.is_cleared ∧
    ∀ c, c ∈ r.connections → c ∈ (addConnection r n).connections := by
  unfold addConnection
  by_cases h : n ∈ r.connections
  · rw [if_pos h]
    exact ⟨rfl, rfl, rfl, rfl, fun _ hc => hc⟩
  · rw [if_neg h]
    exact ⟨rfl, rfl, rfl, rfl, fun _ hc => List.mem_append_left _ hc⟩

theorem addConnection_mem (r : Room) (n : Nat) : n ∈ (addConnection r n).connections := by
  unfold addConnection
  by_cases h : n ∈ r.connections
  · rw [if_pos h]
    exact h
  · rw [if_neg h]
    exact List.mem_append_right _ (List.mem_singleton.mpr rfl)

theorem linkStep_none (rs : List Room) (j : Nat)
    (h : rs.get? j = none ∨ rs.get? (j + 1) = none) : linkStep rs j = rs := by
  unfold linkStep
  rcases h with h | h
  · rw [h]
  · rw [h]
    cases rs.get? j <;> rfl

theorem linkStep_some (rs : List Room) (j : Nat) (rfrom rto : Room)
    (h1 : rs.get? j = some rfrom) (h2 : rs.get? (j + 1) = some rto) :
    linkStep rs j =
      (if rto.type ≠ RoomType.locked then
        modifyAt (modifyAt (modifyAt rs j (fun r => addConnection r rto.room_number)) (j + 1)
          (fun r => addConnection r rfrom.room_number)) (j + 1)
          (fun r => { r with is_accessible := false })
      else
        modifyAt (modifyAt rs j (fun r => addConnection r rto.room_number)) (j + 1)
          (fun r => addConnection r rfrom.room_number)) := by
  unfold linkStep
  rw [h1, h2]

theorem linkStep_evolve (rs : List Room) (j : Nat) : RoomsEvolve rs (linkStep rs j) := by
  cases hfrom : rs.get? j with
  | none => rw [linkStep_none rs j (Or.inl hfrom)]; exact roomsEvolve_refl rs
  | some rfrom =>
    cases hto : rs.get? (j + 1) with
    | none => rw [linkStep_none rs j (Or.inr hto)]; exact roomsEvolve_refl rs
    | some rto =>
      rw [linkStep_some rs j rfrom rto hfrom hto]
      have hadd : ∀ (n : Nat) (r : Room), ((fun r => addConnection r n) r).room_number =
          r.room_number ∧ ((fun r => addConnection r n) r).type = r.type ∧
          ∀ c, c ∈ r.connections → c ∈ ((fun r => addConnection r n) r).connections :=
        fun n r => ⟨(addConnection_fields r n).1, (addConnection_fields r n).2.1,
          (addConnection_fields r n).2.2.2.2⟩
      have e1 : RoomsEvolve rs (modifyAt rs j (fun r => addConnection r rto.room_number)) :=
        roomsEvolve_modifyAt _ _ _ (hadd _)
      have e2 := roomsEvolve_trans e1
        (roomsEvolve_modifyAt (modifyAt rs j (fun r => addConnection r rto.room_number))
          (j + 1) (fun r => addConnection r rfrom.room_number) (hadd _))
      by_cases hty : rto.type ≠ RoomType.locked
      · rw [if_pos hty]
        exact roomsEvolve_trans e2
          (roomsEvolve_modifyAt _ (j + 1) _ (fun r => ⟨rfl, rfl, fun _ hc => hc⟩))
      · rw [if_neg hty]
        exact e2

theorem linkStep_succEdge (rs : List Room) (j : Nat) (hj : j + 1 < rs.length) :
    SuccEdge (linkStep rs j) j := by
  have hju : j < rs.length := Nat.lt_of_succ_lt hj
  have hfrom : rs.get? j = some (rs.get ⟨j, hju⟩) := List.get?_eq_get hju
  have hto : rs.get? (j + 1) = some (rs.get ⟨j + 1, hj⟩) := List.get?_eq_get hj
  have hne : j ≠ j + 1 := Nat.ne_of_lt (Nat.lt_succ_self j)
  have hne' : j + 1 ≠ j := Nat.succ_ne_self j
  intro r r' hr hr'
  rw [linkStep_some rs j _ _ hfrom hto] at hr hr'
  by_cases hty : (rs.get ⟨j + 1, hj⟩).type ≠ RoomType.locked
  · rw [if_pos hty] at hr hr'
    rw [get?_modifyAt, if_neg hne, get?_modifyAt, if_neg hne, get?_modifyAt, if_pos rfl,
      hfrom] at hr
    rw [get?_modifyAt, if_pos rfl, get?_modifyAt, if_pos rfl, get?_modifyAt, if_neg hne',
      hto] at hr'
    simp only [Option.map_some', Option.some.injEq] at hr hr'
    subst hr
    subst hr'
    show (addConnection (rs.get ⟨j + 1, hj⟩) (rs.get ⟨j, hju⟩).room_number).room_number ∈ _
    rw [(addConnection_fields _ _).1]
    exact addConnection_mem _ _
  · rw [if_neg hty] at hr hr'
    rw [get?_modifyAt, if_neg hne, get?_modifyAt, if_pos rfl, hfrom] at hr
    rw [get?_modifyAt, if_pos rfl, get?_modifyAt, if_neg hne', hto] at hr'
    simp only [Option.map_some', Option.some.injEq] at hr hr'
    subst hr
    subst hr'
    rw [(addConnection_fields _ _).1]
    exact addConnection_mem _ _

-- ──────── locked rooms stay inaccessible through the link phase ────────

theorem lockedInacc_modifyAt (rs : List Room) (j : Nat) (f : Room → Room)
    (h : LockedInacc rs)
    (hf : ∀ r, rs.get? j = some r → (f r).type = RoomType.locked → (f r).is_accessible = false) :
    LockedInacc (modifyAt rs j f) := by
  intro r' hmem hty
  obtain ⟨k, hk⟩ := List.mem_iff_get?.mp hmem
  rw [get?_modifyAt] at hk
  by_cases hkj : k = j
  · rw [if_pos hkj] at hk
    cases horig : rs.get? k with
    | none => rw [horig] at hk; cases hk
    | some r0 =>
      rw [horig] at hk
      simp only [Option.map_some', Option.some.injEq] at hk
      subst hk
      subst hkj
      exact hf r0 horig hty
  · rw [if_neg hkj] at hk
    exact h r' (List.get?_mem hk) hty

theorem linkStep_lockedInacc (rs : List Room) (j : Nat) (h : LockedInacc rs) :
    LockedInacc (linkStep rs j) := by
  cases hfrom : rs.get? j with
  | none => rw [linkStep_none rs j (Or.inl hfrom)]; exact h
  | some rfrom =>
    cases hto : rs.get? (j + 1) with
    | none => rw [linkStep_none rs j (Or.inr hto)]; exact h
    | some rto =>
      rw [linkStep_some rs j rfrom rto hfrom hto]
      have haddInacc : ∀ (rs₀ : List Room) (k : Nat) (n : Nat), LockedInacc rs₀ →
          LockedInacc (modifyAt rs₀ k (fun r => addConnection r n)) := by
        intro rs₀ k n h₀
        refine lockedInacc_modifyAt rs₀ k _ h₀ (fun r hr hty => ?_)
        rw [(addConnection_fields r n).2.2.1]
        exact h₀ r (List.get?_mem hr) ((addConnection_fields r n).2.1 ▸ hty)
      have h2 : LockedInacc (modifyAt (modifyAt rs j (fun r => addConnection r rto.room_number))
          (j + 1) (fun r => addConnection r rfrom.room_number)) :=
        haddInacc _ _ _ (haddInacc _ _ _ h)
      by_cases hty : rto.type ≠ RoomType.locked
      · rw [if_pos hty]
        exact lockedInacc_modifyAt _ _ _ h2 (fun r _ _ => rfl)
      · rw [if_neg hty]
        exact h2

-- ──────── link phase fold ────────

theorem foldl_linkStep_spec (rs : List Room) (n : Nat) :
    RoomsEvolve rs ((List.range n).foldl linkStep rs) ∧
    (LockedInacc rs → LockedInacc ((List.range n).foldl linkStep rs)) ∧
    (∀ j, j < n → j + 1 < rs.length → SuccEdge ((List.range n).foldl linkStep rs) j) := by
  induction n with
  | zero =>
    refine ⟨roomsEvolve_refl rs, fun h => h, fun j hj _ => absurd hj (Nat.not_lt_zero j)⟩
  | succ n ih =>
    rw [List.range_succ, List.foldl_append, List.foldl_cons, List.foldl_nil]
    obtain ⟨ihe, ihl, ihs⟩ := ih
    refine ⟨roomsEvolve_trans ihe (linkStep_evolve _ n), fun h => linkStep_lockedInacc _ n (ihl h),
      fun j hj hjlen => ?_⟩
    have hlen : ((List.range n).foldl linkStep rs).length = rs.length := ihe.1
    rcases Nat.lt_succ_iff_lt_or_eq.mp hj with h | h
    · exact succEdge_of_evolve (linkStep_evolve _ n) j (hlen ▸ hjlen) (ihs j h hjlen)
    · subst h
      exact linkStep_succEdge _ j (hlen ▸ hjlen)

theorem linkPhase_spec (rs : List Room) :
    RoomsEvolve rs (linkPhase rs) ∧
    (LockedInacc rs → LockedInacc (linkPhase rs)) ∧
    (∀ j, j + 1 < rs.length → SuccEdge (linkPhase rs) j) := by
  obtain ⟨he, hl, hs⟩ := foldl_linkStep_spec rs (rs.length - 1)
  exact ⟨he, hl, fun j hj => hs j (by omega) hj⟩

-- ──────── branch phase ────────

theorem room_conn_append_nil (r : Room) : { r with connections := r.connections ++ [] } = r := by
  cases r
  simp

theorem connExtendList_refl (rs : List Room) : ConnExtendList rs rs :=
  ⟨rfl, fun _ r h => ⟨[], by rw [room_conn_append_nil]; exact h⟩⟩

theorem connExtendList_trans {rs₁ rs₂ rs₃ : List Room}
    (h₁ : ConnExtendList rs₁ rs₂) (h₂ : ConnExtendList rs₂ rs₃) : ConnExtendList rs₁ rs₃ := by
  refine ⟨h₂.1.trans h₁.1, fun j r h => ?_⟩
  obtain ⟨e1, h1⟩ := h₁.2 j r h
  obtain ⟨e2, h2⟩ := h₂.2 j _ h1
  refine ⟨e1 ++ e2, ?_⟩
  rw [h2]
  simp [List.append_assoc]

theorem connExtendList_modifyAt (rs : List Room) (j : Nat) (extra : List Nat) :
    ConnExtendList rs (modifyAt rs j
      (fun r => { r with connections := r.connections ++ extra })) := by
  refine ⟨modifyAt_length rs j _, fun k r h => ?_⟩
  rw [get?_modifyAt]
  by_cases hk : k = j
  · rw [if_pos hk, h]
    exact ⟨extra, rfl⟩
  · rw [if_neg hk, h]
    exact ⟨[], by rw [room_conn_append_nil]⟩

theorem branchApply_connExtend (rs : List Room) (j target : Nat) :
    ConnExtendList rs (branchApply rs j target) := by
  unfold branchApply
  cases h1 : rs.get? j with
  | none => exact connExtendList_refl rs
  | some rj =>
    cases h2 : rs.get? target with
    | none => exact connExtendList_refl rs
    | some rt =>
      exact connExtendList_trans (connExtendList_modifyAt rs j [rt.room_number])
        (connExtendList_modifyAt _ target [rj.room_number])

theorem branchStep_connExtend (g : Src) (len : Nat) (st : List Room × Nat) (j : Nat) :
    ConnExtendList st.1 (branchStep g len st j).1 := by
  unfold branchStep
  by_cases hc : chance (g st.2) 2 10
  · rw [if_pos hc]
    by_cases ht : j + 2 + g (st.2 + 1) * min 2 (len - j - 2) / M < len
    · rw [if_pos ht]
      exact branchApply_connExtend st.1 j _
    · rw [if_neg ht]
      exact connExtendList_refl st.1
  · rw [if_neg hc]
    exact connExtendList_refl st.1

theorem foldl_branchStep_connExtend (g : Src) (len : Nat) (l : List Nat) :
    ∀ st : List Room × Nat, ConnExtendList st.1 (l.foldl (branchStep g len) st).1 := by
  induction l with
  | nil => exact fun st => connExtendList_refl st.1
  | cons j rest ih =>
    intro st
    rw [List.foldl_cons]
    exact connExtendList_trans (branchStep_connExtend g len st j) (ih _)

theorem branchPhase_connExtend (g : Src) (i : Nat) (rs : List Room) :
    ConnExtendList rs (branchPhase g i rs).1 :=
  foldl_branchStep_connExtend g rs.length _ (rs, i)

theorem connExtend_evolve {rs rs' : List Room} (h : ConnExtendList rs rs') :
    RoomsEvolve rs rs' := by
  refine ⟨h.1, fun j r hj => ?_⟩
  obtain ⟨extra, he⟩ := h.2 j r hj
  exact ⟨_, he, rfl, rfl, fun c hc => List.mem_append_left _ hc⟩

theorem connExtend_lockedInacc {rs rs' : List Room} (h : ConnExtendList rs rs')
    (hl : LockedInacc rs) : LockedInacc rs' := by
  intro r' hmem hty
  obtain ⟨k, hk⟩ := List.mem_iff_get?.mp hmem
  cases horig : rs.get? k with
  | none =>
    rw [List.get?_eq_none] at horig
    have : rs'.get? k = none := List.get?_eq_none.mpr (h.1 ▸ horig)
    rw [this] at hk
    cases hk
  | some r0 =>
    obtain ⟨extra, he⟩ := h.2 k r0 horig
    rw [he] at hk
    cases hk
    exact hl r0 (List.get?_mem horig) hty

theorem connExtend_acc0 {rs rs' : List Room} (h : ConnExtendList rs rs') (r : Room)
    (h0 : rs.get? 0 = some r) (hacc : r.is_accessible = true) :
    ∃ r', rs'.get? 0 = some r' ∧ r'.is_accessible = true := by
  obtain ⟨extra, he⟩ := h.2 0 r h0
  exact ⟨_, he, hacc⟩

-- ──────── room numbers and list shape ────────

theorem map_number_eq_of_evolve {rs rs' : List Room} (h : RoomsEvolve rs rs') :
    rs'.map Room.room_number = rs.map Room.room_number := by
  apply List.ext
  intro n
  rw [List.get?_map, List.get?_map]
  cases hx : rs.get? n with
  | none =>
    rw [List.get?_eq_none] at hx
    rw [List.get?_eq_none.mpr (h.1 ▸ hx)]
  | some r =>
    obtain ⟨r', hr', hn, _, _⟩ := h.2 n r hx
    rw [hr']
    simp only [Option.map_some', hn]

theorem createRoom_fields (g : Src) (i : Nat) (n : Nat) (ty : RoomType) (dcR : DcRange)
    (f : Nat) (rules : List EnemyRule) (ent : Bool) (d : Dungeon) (bossR ex : Bool) :
    (createRoom g i n ty dcR f rules ent d bossR ex).1.room_number = n ∧
    (createRoom g i n ty dcR f rules ent d bossR ex).1.type = ty ∧
    (createRoom g i n ty dcR f rules ent d bossR ex).1.is_cleared = false ∧
    (createRoom g i n ty dcR f rules ent d bossR ex).1.connections = [] ∧
    (createRoom g i n ty dcR f rules ent d bossR ex).1.is_accessible =
      (if ty = RoomType.locked then false else decide (n = 1)) :=
  ⟨rfl, rfl, rfl, rfl, rfl⟩

-- ──────── the generated room list ────────

theorem buildMiddleRooms_succ (g : Src) (d : Dungeon) (f : Nat) (rules : List EnemyRule)
    (i cur n : Nat) :
    buildMiddleRooms g d f rules i cur (n + 1) =
      ((createRoom g (pickRoomType g i f).2 cur
          (if cur = 2 ∧ (pickRoomType g i f).1 = RoomType.locked then RoomType.standard
            else (pickRoomType g i f).1) d.dc_range f rules false d false false).1 ::
        (buildMiddleRooms g d f rules
          (createRoom g (pickRoomType g i f).2 cur
            (if cur = 2 ∧ (pickRoomType g i f).1 = RoomType.locked then RoomType.standard
              else (pickRoomType g i f).1) d.dc_range f rules false d false false).2
          (cur + 1) n).1,
       (buildMiddleRooms g d f rules
          (createRoom g (pickRoomType g i f).2 cur
            (if cur = 2 ∧ (pickRoomType g i f).1 = RoomType.locked then RoomType.standard
              else (pickRoomType g i f).1) d.dc_range f rules false d false false).2
          (cur + 1) n).2) := rfl

theorem buildMiddleRooms_spec (g : Src) (d : Dungeon) (f : Nat) (rules : List EnemyRule) :
    ∀ (n i cur : Nat),
    (buildMiddleRooms g d f rules i cur n).1.map Room.room_number = List.range' cur n ∧
    ∀ r ∈ (buildMiddleRooms g d f rules i cur n).1,
      r.is_cleared = false ∧ r.connections = [] ∧
      (r.type = RoomType.locked → r.is_accessible = false) := by
  intro n
  induction n with
  | zero =>
    intro i cur
    exact ⟨rfl, fun r h => absurd h (List.not_mem_nil r)⟩
  | succ n ih =>
    intro i cur
    rw [buildMiddleRooms_succ]
    obtain ⟨ihm, ihr⟩ := ih (createRoom g (pickRoomType g i f).2 cur
      (if cur = 2 ∧ (pickRoomType g i f).1 = RoomType.locked then RoomType.standard
        else (pickRoomType g i f).1) d.dc_range f rules false d false false).2 (cur + 1)
    constructor
    · rw [List.map_cons, ihm, List.range'_succ]
      rw [(createRoom_fields g _ cur _ d.dc_range f rules false d false false).1]
    · intro r hr
      rcases List.mem_cons.mp hr with h | h
      · subst h
        refine ⟨(createRoom_fields g _ cur _ d.dc_range f rules false d false false).2.2.1,
          (createRoom_fields g _ cur _ d.dc_range f rules false d false false).2.2.2.1,
          fun hty => ?_⟩
        rw [(createRoom_fields g _ cur _ d.dc_range f rules false d false false).2.2.2.2]
        have : (createRoom g (pickRoomType g i f).2 cur
            (if cur = 2 ∧ (pickRoomType g i f).1 = RoomType.locked then RoomType.standard
              else (pickRoomType g i f).1) d.dc_range f rules false d false false).1.type =
            (if cur = 2 ∧ (pickRoomType g i f).1 = RoomType.locked then RoomType.standard
              else (pickRoomType g i f).1) :=
          (createRoom_fields g _ cur _ d.dc_range f rules false d false false).2.1
        rw [this] at hty
        rw [if_pos hty]
      · exact ihr r h

theorem generateConnections_spec (g : Src) (i : Nat) (rs : List Room) (count : Nat)
    (hnum : rs.map Room.room_number = List.range' 1 count)
    (hlock : LockedInacc rs)
    (h0 : ∀ r, rs.get? 0 = some r → r.type = RoomType.standard)
    (hc : 2 ≤ count) :
    (generateConnections g i rs).1.map Room.room_number = List.range' 1 count ∧
    (generateConnections g i rs).1.length = count ∧
    LockedInacc (generateConnections g i rs).1 ∧
    (∃ r0, (generateConnections g i rs).1.get? 0 = some r0 ∧ r0.is_accessible = true) ∧
    (∀ j, j + 1 < (generateConnections g i rs).1.length →
      SuccEdge (generateConnections g i rs).1 j) := by
  have hlen : rs.length = count := by
    have h := congrArg List.length hnum
    simpa using h
  obtain ⟨e1, l1, s1⟩ := linkPhase_spec rs
  have hLlen : (linkPhase rs).length = rs.length := e1.1
  have hrs0 : ∃ r, rs.get? 0 = some r := by
    have hpos : 0 < rs.length := by omega
    rw [List.get?_eq_get hpos]
    exact ⟨_, rfl⟩
  obtain ⟨r0, hr0⟩ := hrs0
  obtain ⟨rL0, hrL0, hn0, ht0, _⟩ := e1.2 0 r0 hr0
  have e2 : RoomsEvolve (linkPhase rs)
      (modifyAt (linkPhase rs) 0 (fun r => { r with is_accessible := true })) :=
    roomsEvolve_modifyAt _ 0 _ (fun r => ⟨rfl, rfl, fun _ hcx => hcx⟩)
  have hAlock : LockedInacc (modifyAt (linkPhase rs) 0
      (fun r => { r with is_accessible := true })) := by
    refine lockedInacc_modifyAt _ 0 _ (l1 hlock) (fun r hr hty => ?_)
    rw [hrL0] at hr
    cases hr
    rw [show ({ rL0 with is_accessible := true } : Room).type = rL0.type from rfl, ht0,
      h0 r0 hr0] at hty
    cases hty
  have hA0 : (modifyAt (linkPhase rs) 0 (fun r => { r with is_accessible := true })).get? 0 =
      some { rL0 with is_accessible := true } := by
    rw [get?_modifyAt, if_pos rfl, hrL0]
    rfl
  have hAlen : (modifyAt (linkPhase rs) 0
      (fun r => { r with is_accessible := true })).length = rs.length := by
    rw [modifyAt_length, hLlen]
  have hAs : ∀ j, j + 1 < rs.length → SuccEdge
      (modifyAt (linkPhase rs) 0 (fun r => { r with is_accessible := true })) j :=
    fun j hj => succEdge_of_evolve e2 j (by omega) (s1 j hj)
  have hB := branchPhase_connExtend g i
    (modifyAt (linkPhase rs) 0 (fun r => { r with is_accessible := true }))
  have hGC : (generateConnections g i rs).1 = (branchPhase g i
      (modifyAt (linkPhase rs) 0 (fun r => { r with is_accessible := true }))).1 := rfl
  have hBlen : (generateConnections g i rs).1.length = count := by
    rw [hGC, hB.1, hAlen, hlen]
  refine ⟨?_, hBlen, ?_, ?_, ?_⟩
  · rw [hGC, map_number_eq_of_evolve (connExtend_evolve hB),
      map_number_eq_of_evolve e2, map_number_eq_of_evolve e1, hnum]
  · rw [hGC]
    exact connExtend_lockedInacc hB hAlock
  · rw [hGC]
    exact connExtend_acc0 hB _ hA0 rfl
  · intro j hj
    rw [hGC] at hj ⊢
    rw [hB.1, hAlen] at hj
    exact succEdge_of_evolve (connExtend_evolve hB) j (by omega) (hAs j hj)

theorem generateFloor_shape (g : Src) (i : Nat) (d : Dungeon) (f : Nat) (fin : Bool)
    (rules : List EnemyRule) :
    ∃ (j : Nat) (room1 : Room) (mid : List Room) (lastRoom : Room),
      (generateFloor g i d f fin rules).1.rooms =
        (generateConnections g j (room1 :: mid ++ [lastRoom])).1 ∧
      room1.room_number = 1 ∧ room1.type = RoomType.standard ∧
      mid.map Room.room_number = List.range' 2 (4 + f / 2 + (roll g i 3).1 - 1 - 2) ∧
      (∀ r ∈ mid, r.type = RoomType.locked → r.is_accessible = false) ∧
      lastRoom.room_number = 4 + f / 2 + (roll g i 3).1 - 1 ∧
      lastRoom.type ≠ RoomType.locked := by
  obtain ⟨hm, hr⟩ := buildMiddleRooms_spec g d f rules (4 + f / 2 + (roll g i 3).1 - 1 - 2)
    (createRoom g (roll g i 3).2 1 RoomType.standard d.dc_range f rules true d false false).2 2
  cases fin
  · refine ⟨_, _, _, _, rfl, rfl, rfl, hm, fun r hrm => (hr r hrm).2.2, rfl, ?_⟩
    intro hcon
    cases hcon
  · refine ⟨_, _, _, _, rfl, rfl, rfl, hm, fun r hrm => (hr r hrm).2.2, rfl, ?_⟩
    intro hcon
    cases hcon

theorem generateFloor_structure (g : Src) (i : Nat) (d : Dungeon) (f : Nat) (fin : Bool)
    (rules : List EnemyRule) :
    (generateFloor g i d f fin rules).1.rooms.map Room.room_number =
      List.range' 1 (4 + f / 2 + (roll g i 3).1 - 1) ∧
    (generateFloor g i d f fin rules).1.rooms.length = 4 + f / 2 + (roll g i 3).1 - 1 ∧
    LockedInacc (generateFloor g i d f fin rules).1.rooms ∧
    (∃ r0, (generateFloor g i d f fin rules).1.rooms.get? 0 = some r0 ∧
      r0.is_accessible = true) ∧
    (∀ j, j + 1 < (generateFloor g i d f fin rules).1.rooms.length →
      SuccEdge (generateFloor g i d f fin rules).1.rooms j) := by
  obtain ⟨j, room1, mid, lastRoom, heq, h1n, h1t, hmn, hml, hzn, hzt⟩ :=
    generateFloor_shape g i d f fin rules
  have hcount : 4 ≤ 4 + f / 2 + (roll g i 3).1 - 1 := by
    have : 1 ≤ (roll g i 3).1 := roll_pos g i 3
    omega
  have hmidlen : mid.length = 4 + f / 2 + (roll g i 3).1 - 1 - 2 := by
    have h := congrArg List.length hmn
    simpa using h
  have hnum : (room1 :: mid ++ [lastRoom]).map Room.room_number =
      List.range' 1 (4 + f / 2 + (roll g i 3).1 - 1) := by
    simp only [List.map_cons, List.map_append, List.map_nil]
    rw [hmn, h1n, hzn]
    have e2 : (1 : Nat) :: List.range' 2 (4 + f / 2 + (roll g i 3).1 - 1 - 2) =
        List.range' 1 (4 + f / 2 + (roll g i 3).1 - 1 - 2 + 1) := by
      rw [List.range'_succ]
    rw [e2]
    have e3 : [4 + f / 2 + (roll g i 3).1 - 1] =
        List.range' (1 + (4 + f / 2 + (roll g i 3).1 - 1 - 2 + 1)) 1 := by
      rw [List.range'_one]
      congr 1
      omega
    rw [e3, List.range'_append_1]
    congr 1
    omega
  have hlock : LockedInacc (room1 :: mid ++ [lastRoom]) := by
    intro r hmem hty
    rcases List.mem_cons.mp hmem with h | h
    · subst h
      rw [h1t] at hty
      cases hty
    · rcases List.mem_append.mp h with h | h
      · exact hml r h hty
      · rw [List.mem_singleton.mp h] at hty
        exact absurd hty hzt
  have h0 : ∀ r, (room1 :: mid ++ [lastRoom]).get? 0 = some r →
      r.type = RoomType.standard := by
    intro r hget
    cases hget
    exact h1t
  rw [heq]
  exact generateConnections_spec g j (room1 :: mid ++ [lastRoom])
    (4 + f / 2 + (roll g i 3).1 - 1) hnum hlock h0 (by omega)

-- ──────── clearRoom / unlockRoom pointwise behaviour ────────

theorem updateFirst_length (rs : List Room) (n : Nat) (f : Room → Room) :
    (updateFirst rs n f).length = rs.length := by
  induction rs with
  | nil => rfl
  | cons a rest ih =>
    unfold updateFirst
    by_cases h : a.room_number = n
    · rw [if_pos h]
      rfl
    · rw [if_neg h]
      simp [ih]

theorem updateFirst_pointwise (rs : List Room) (n : Nat) (f : Room → Room) (j : Nat) (r : Room)
    (h : rs.get? j = some r) :
    (updateFirst rs n f).get? j = some r ∨
    ((updateFirst rs n f).get? j = some (f r) ∧
      rs.find? (fun x => x.room_number == n) = some r) := by
  induction rs generalizing j with
  | nil => cases h
  | cons a rest ih =>
    unfold updateFirst
    by_cases ha : a.room_number = n
    · rw [if_pos ha]
      cases j with
      | zero =>
        rw [List.get?_cons_zero] at h
        cases h
        right
        refine ⟨rfl, ?_⟩
        rw [List.find?_cons_of_pos]
        simp [ha]
      | succ j =>
        rw [List.get?_cons_succ] at h
        left
        rw [List.get?_cons_succ]
        exact h
    · rw [if_neg ha]
      cases j with
      | zero =>
        rw [List.get?_cons_zero] at h
        cases h
        left
        rfl
      | succ j =>
        rw [List.get?_cons_succ] at h
        rcases ih j h with h1 | ⟨h1, h2⟩
        · left
          rw [List.get?_cons_succ]
          exact h1
        · right
          refine ⟨by rw [List.get?_cons_succ]; exact h1, ?_⟩
          rw [List.find?_cons_of_neg]
          · exact h2
          · simp [ha]

theorem clearLoop_cons_none (rs : List Room) (c : Nat) (rest : List Nat)
    (h : rs.find? (fun r => r.room_number == c) = none) :
    clearLoop rs (c :: rest) = clearLoop rs rest := by
  simp only [clearLoop]
  rw [h]

theorem clearLoop_cons_skip (rs : List Room) (c : Nat) (rest : List Nat) (conn : Room)
    (h : rs.find? (fun r => r.room_number == c) = some conn)
    (hg : ¬(conn.is_accessible = false ∧ conn.type ≠ RoomType.locked)) :
    clearLoop rs (c :: rest) = clearLoop rs rest := by
  simp only [clearLoop]
  rw [h]
  show (if conn.is_accessible = false ∧ conn.type ≠ RoomType.locked then
      ((clearLoop (updateFirst rs c (fun r => { r with is_accessible := true })) rest).1,
       c :: (clearLoop (updateFirst rs c (fun r => { r with is_accessible := true })) rest).2)
    else clearLoop rs rest) = _
  rw [if_neg hg]

theorem clearLoop_cons_fire (rs : List Room) (c : Nat) (rest : List Nat) (conn : Room)
    (h : rs.find? (fun r => r.room_number == c) = some conn)
    (hg : conn.is_accessible = false ∧ conn.type ≠ RoomType.locked) :
    clearLoop rs (c :: rest) =
      ((clearLoop (updateFirst rs c (fun r => { r with is_accessible := true })) rest).1,
       c :: (clearLoop (updateFirst rs c (fun r => { r with is_accessible := true })) rest).2) := by
  simp only [clearLoop]
  rw [h]
  show (if conn.is_accessible = false ∧ conn.type ≠ RoomType.locked then
      ((clearLoop (updateFirst rs c (fun r => { r with is_accessible := true })) rest).1,
       c :: (clearLoop (updateFirst rs c (fun r => { r with is_accessible := true })) rest).2)
    else clearLoop rs rest) = _
  rw [if_pos hg]

theorem clearLoop_length (cs : List Nat) : ∀ rs : List Room,
    (clearLoop rs cs).1.length = rs.length := by
  induction cs with
  | nil => intro rs; rfl
  | cons c rest ih =>
    intro rs
    cases hfind : rs.find? (fun r => r.room_number == c) with
    | none =>
      rw [clearLoop_cons_none rs c rest hfind]
      exact ih rs
    | some conn =>
      by_cases hguard : conn.is_accessible = false ∧ conn.type ≠ RoomType.locked
      · rw [clearLoop_cons_fire rs c rest conn hfind hguard]
        show (clearLoop _ rest).1.length = _
        rw [ih, updateFirst_length]
      · rw [clearLoop_cons_skip rs c rest conn hfind hguard]
        exact ih rs

theorem clearLoop_pointwise (cs : List Nat) : ∀ (rs : List Room) (j : Nat) (r : Room),
    rs.get? j = some r →
    (clearLoop rs cs).1.get? j = some r ∨
    ((clearLoop rs cs).1.get? j = some { r with is_accessible := true } ∧
      r.type ≠ RoomType.locked) := by
  induction cs with
  | nil => intro rs j r h; left; exact h
  | cons c rest ih =>
    intro rs j r h
    cases hfind : rs.find? (fun r => r.room_number == c) with
    | none =>
      rw [clearLoop_cons_none rs c rest hfind]
      exact ih rs j r h
    | some conn =>
      by_cases hguard : conn.is_accessible = false ∧ conn.type ≠ RoomType.locked
      · rw [clearLoop_cons_fire rs c rest conn hfind hguard]
        rcases updateFirst_pointwise rs c (fun r => { r with is_accessible := true }) j r h
          with h1 | ⟨h1, h2⟩
        · exact ih _ j r h1
        · have hconn : conn = r := by
            rw [hfind] at h2
            cases h2
            rfl
          rcases ih _ j _ h1 with h3 | ⟨h3, _⟩
          · right
            exact ⟨h3, hconn ▸ hguard.2⟩
          · right
            exact ⟨h3, hconn ▸ hguard.2⟩
      · rw [clearLoop_cons_skip rs c rest conn hfind hguard]
        exact ih rs j r h

theorem clearRoom_length (fm : FloorMap) (n : Nat) :
    (clearRoom fm n).1.rooms.length = fm.rooms.length := by
  unfold clearRoom
  cases hf : findRoom fm n with
  | none => rfl
  | some room =>
    show (clearLoop _ _).1.length = _
    rw [clearLoop_length, updateFirst_length]

theorem clearRoom_pointwise (fm : FloorMap) (n : Nat) (j : Nat) (r : Room)
    (h : fm.rooms.get? j = some r) :
    ∃ r', (clearRoom fm n).1.rooms.get? j = some r' ∧
      r'.room_number = r.room_number ∧ r'.type = r.type ∧ r'.connections = r.connections ∧
      (r'.is_accessible = r.is_accessible ∨
        (r'.is_accessible = true ∧ r.type ≠ RoomType.locked)) := by
  unfold clearRoom
  cases hf : findRoom fm n with
  | none => exact ⟨r, h, rfl, rfl, rfl, Or.inl rfl⟩
  | some room =>
    show ∃ r', (clearLoop (updateFirst fm.rooms n (fun r => { r with is_cleared := true }))
      room.connections).1.get? j = some r' ∧ _
    rcases updateFirst_pointwise fm.rooms n (fun r => { r with is_cleared := true }) j r h
      with h1 | ⟨h1, _⟩
    · rcases clearLoop_pointwise room.connections _ j r h1 with h2 | ⟨h2, hty⟩
      · exact ⟨r, h2, rfl, rfl, rfl, Or.inl rfl⟩
      · exact ⟨_, h2, rfl, rfl, rfl, Or.inr ⟨rfl, hty⟩⟩
    · rcases clearLoop_pointwise room.connections _ j _ h1 with h2 | ⟨h2, hty⟩
      · exact ⟨_, h2, rfl, rfl, rfl, Or.inl rfl⟩
      · exact ⟨_, h2, rfl, rfl, rfl, Or.inr ⟨rfl, hty⟩⟩

theorem unlockRoom_length (fm : FloorMap) (n : Nat) :
    (unlockRoom fm n).rooms.length = fm.rooms.length := by
  unfold unlockRoom
  cases hf : findRoom fm n with
  | none => rfl
  | some room => exact updateFirst_length _ _ _

theorem unlockRoom_pointwise (fm : FloorMap) (n : Nat) (j : Nat) (r : Room)
    (h : fm.rooms.get? j = some r) :
    ∃ r', (unlockRoom fm n).rooms.get? j = some r' ∧
      r'.room_number = r.room_number ∧ r'.type = r.type ∧ r'.connections = r.connections ∧
      (r'.is_accessible = r.is_accessible ∨
        (r'.is_accessible = true ∧ r.room_number = n)) := by
  unfold unlockRoom
  cases hf : findRoom fm n with
  | none => exact ⟨r, h, rfl, rfl, rfl, Or.inl rfl⟩
  | some room =>
    rcases updateFirst_pointwise fm.rooms n (fun r =>
      { r with is_accessible := true,
               lock := r.lock.map (fun l => { l with is_picked := true }) }) j r h
      with h1 | ⟨h1, h2⟩
    · exact ⟨r, h1, rfl, rfl, rfl, Or.inl rfl⟩
    · refine ⟨_, h1, rfl, rfl, rfl, Or.inr ⟨rfl, ?_⟩⟩
      have := List.find?_some h2
      simpa using this

theorem applyOps_length (ops : List FloorOp) : ∀ fm : FloorMap,
    (applyOps fm ops).rooms.length = fm.rooms.length := by
  induction ops with
  | nil => intro fm; rfl
  | cons op rest ih =>
    intro fm
    show (applyOps (applyOp fm op) rest).rooms.length = _
    rw [ih]
    cases op with
    | clear n => exact clearRoom_length fm n
    | unlock n => exact unlockRoom_length fm n

theorem applyOps_pointwise (ops : List FloorOp) : ∀ (fm : FloorMap) (j : Nat) (r : Room),
    fm.rooms.get? j = some r →
    ∃ r', (applyOps fm ops).rooms.get? j = some r' ∧ OpsEvolve ops r r' := by
  induction ops with
  | nil =>
    intro fm j r h
    exact ⟨r, h, rfl, rfl, rfl, Or.inl rfl⟩
  | cons op rest ih =>
    intro fm j r h
    have hstep : ∃ r₁, (applyOp fm op).rooms.get? j = some r₁ ∧
        r₁.room_number = r.room_number ∧ r₁.type = r.type ∧ r₁.connections = r.connections ∧
        (r₁.is_accessible = r.is_accessible ∨ (r₁.is_accessible = true ∧
          (r.type ≠ RoomType.locked ∨ FloorOp.unlock r.room_number = op))) := by
      cases op with
      | clear n =>
        obtain ⟨r₁, h₁, hn, ht, hc, hacc⟩ := clearRoom_pointwise fm n j r h
        refine ⟨r₁, h₁, hn, ht, hc, ?_⟩
        rcases hacc with hacc | ⟨hacc, hty⟩
        · exact Or.inl hacc
        · exact Or.inr ⟨hacc, Or.inl hty⟩
      | unlock n =>
        obtain ⟨r₁, h₁, hn, ht, hc, hacc⟩ := unlockRoom_pointwise fm n j r h
        refine ⟨r₁, h₁, hn, ht, hc, ?_⟩
        rcases hacc with hacc | ⟨hacc, hnum⟩
        · exact Or.inl hacc
        · exact Or.inr ⟨hacc, Or.inr (by rw [hnum])⟩
    obtain ⟨r₁, h₁, hn, ht, hc, hacc⟩ := hstep
    obtain ⟨r', h', hn', ht', hc', hacc'⟩ := ih (applyOp fm op) j r₁ h₁
    refine ⟨r', h', hn'.trans hn, ht'.trans ht, hc'.trans hc, ?_⟩
    rcases hacc' with hacc' | ⟨hacc', hguard'⟩
    · rcases hacc with hacc | ⟨hacc, hguard⟩
      · exact Or.inl (hacc'.trans hacc)
      · refine Or.inr ⟨hacc'.trans hacc, ?_⟩
        rcases hguard with hg | hg
        · exact Or.inl hg
        · exact Or.inr (hg ▸ List.mem_cons_self op rest)
    · refine Or.inr ⟨hacc', ?_⟩
      rcases hguard' with hg | hg
      · rw [ht] at hg
        exact Or.inl hg
      · rw [hn] at hg
        exact Or.inr (List.mem_cons_of_mem op hg)

theorem applyOps_evolve (ops : List FloorOp) (fm : FloorMap) :
    RoomsEvolve fm.rooms (applyOps fm ops).rooms := by
  refine ⟨applyOps_length ops fm, fun j r h => ?_⟩
  obtain ⟨r', h', hn, ht, hc, _⟩ := applyOps_pointwise ops fm j r h
  exact ⟨r', h', hn, ht, fun c hcm => hc ▸ hcm⟩

-- ──────── room lookup by number in a 1..N-numbered list ────────

theorem range'_get? : ∀ (n s j : Nat), j < n → (List.range' s n).get? j = some (s + j) := by
  intro n
  induction n with
  | zero => intro s j h; omega
  | succ n ih =>
    intro s j h
    rw [List.range'_succ]
    cases j with
    | zero => simp
    | succ j =>
      rw [List.get?_cons_succ, ih (s + 1) j (by omega)]
      congr 1
      omega

theorem find?_of_map_range' : ∀ (rs : List Room) (s n : Nat),
    rs.map Room.room_number = List.range' s n →
    ∀ j, j < n → rs.find? (fun r => r.room_number == s + j) = rs.get? j := by
  intro rs
  induction rs with
  | nil =>
    intro s n hmap j hj
    have hn0 : (0 : Nat) = n := by simpa using congrArg List.length hmap
    rw [← hn0] at hj
    omega
  | cons a rest ih =>
    intro s n hmap j hj
    cases n with
    | zero => simp at hmap
    | succ n =>
      rw [List.range'_succ, List.map_cons] at hmap
      have ha : a.room_number = s := (List.cons.injEq _ _ _ _ ▸ hmap).1
      have hrest : rest.map Room.room_number = List.range' (s + 1) n :=
        (List.cons.injEq _ _ _ _ ▸ hmap).2
      cases j with
      | zero =>
        rw [List.find?_cons_of_pos, List.get?_cons_zero]
        simp [ha]
      | succ j =>
        rw [List.find?_cons_of_neg, List.get?_cons_succ]
        · rw [show s + (j + 1) = (s + 1) + j from by omega]
          exact ih (s + 1) n hrest j (by omega)
        · simp only [beq_iff_eq, ha]
          omega

theorem number_at_of_map_range' (rs : List Room) (s n : Nat)
    (hmap : rs.map Room.room_number = List.range' s n) (j : Nat) (r : Room)
    (h : rs.get? j = some r) : r.room_number = s + j := by
  have hlen : rs.length = n := by
    have h2 := congrArg List.length hmap
    simpa using h2
  have hj : j < n := by
    by_contra hc
    rw [List.get?_eq_none.mpr (by omega)] at h
    cases h
  have h1 : (rs.map Room.room_number).get? j = some r.room_number := by
    rw [List.get?_map, h]
    rfl
  rw [hmap, range'_get? n s j hj] at h1
  exact (Option.some.injEq _ _ ▸ h1).symm
-- ──────── C3 and C5 ────────

/-- C5 (amended): for every floor generated by `generateFloor` with floor
number `f`, the number of rooms lies in `[base, base + 2]` where
`base = 4 + ⌊f/2⌋` (the `roll(3) - 1` term adds 0–2 rooms, not ±1). -/
theorem generateFloor_roomCount_amended (g : Src) (i : Nat) (d : Dungeon) (f : Nat)
    (fin : Bool) (rules : List EnemyRule) (hg : SrcOk g) :
    4 + f / 2 ≤ (generateFloor g i d f fin rules).1.rooms.length ∧
    (generateFloor g i d f fin rules).1.rooms.length ≤ 4 + f / 2 + 2 := by
  have hlen := (generateFloor_structure g i d f fin rules).2.1
  have h1 : 1 ≤ (roll g i 3).1 := roll_pos g i 3
  have h3 : (roll g i 3).1 ≤ 3 := roll_le g i 3 (hg i) (by decide)
  omega

/-- Witness for the amended C5 at a concrete input. -/
theorem generateFloor_roomCount_amended_witness :
    4 + 1 / 2 ≤ (generateFloor (fun _ => 0) 0 sampleDungeon 1 false []).1.rooms.length ∧
    (generateFloor (fun _ => 0) 0 sampleDungeon 1 false []).1.rooms.length ≤ 4 + 1 / 2 + 2 :=
  generateFloor_roomCount_amended (fun _ => 0) 0 sampleDungeon 1 false []
    (fun _ => by show (0 : Nat) < M; decide)

/-- C5 counterexample: on floor 1 the base is `4 + ⌊1/2⌋ = 4`, yet with a
maximal random draw `generateFloor` produces 6 rooms — outside the claimed
interval `[base − 1, base + 1] = [3, 5]`. -/
theorem generateFloor_roomCount_counterexample :
    (generateFloor (fun _ => M - 1) 0 sampleDungeon 1 false []).1.rooms.length = 6 ∧
    ¬(4 + 1 / 2 - 1 ≤ (generateFloor (fun _ => M - 1) 0 sampleDungeon 1 false []).1.rooms.length ∧
      (generateFloor (fun _ => M - 1) 0 sampleDungeon 1 false []).1.rooms.length ≤
        4 + 1 / 2 + 1) := by
  refine ⟨?_, ?_⟩ <;> decide

/-- C3: for every floor map returned by `generateFloor` and after any
sequence of `clearRoom` / `unlockRoom` operations on it, room 1 is
accessible, the room graph is connected (a path of connections reaches
every room from room 1), and every `locked` room to which `unlockRoom`
was never applied still has `is_accessible = false` (in particular
`clearRoom` never makes a locked room accessible). -/
theorem generateFloor_invariants (g : Src) (i : Nat) (d : Dungeon) (f : Nat) (fin : Bool)
    (rules : List EnemyRule) (ops : List FloorOp) :
    (∃ r, findRoom (applyOps (generateFloor g i d f fin rules).1 ops) 1 = some r ∧
      r.is_accessible = true) ∧
    Connected (applyOps (generateFloor g i d f fin rules).1 ops) ∧
    (∀ r ∈ (applyOps (generateFloor g i d f fin rules).1 ops).rooms,
      r.type = RoomType.locked → FloorOp.unlock r.room_number ∉ ops →
      r.is_accessible = false) := by
  obtain ⟨hmap0, hlen0, hlock0, ⟨r0, hr0, hr0acc⟩, hedge0⟩ :=
    generateFloor_structure g i d f fin rules
  have hcount : 4 ≤ 4 + f / 2 + (roll g i 3).1 - 1 := by
    have h1 : 1 ≤ (roll g i 3).1 := roll_pos g i 3
    omega
  have hev : RoomsEvolve (generateFloor g i d f fin rules).1.rooms
      (applyOps (generateFloor g i d f fin rules).1 ops).rooms :=
    applyOps_evolve ops (generateFloor g i d f fin rules).1
  have hlen : (applyOps (generateFloor g i d f fin rules).1 ops).rooms.length =
      4 + f / 2 + (roll g i 3).1 - 1 := by
    rw [hev.1, hlen0]
  have hmap : (applyOps (generateFloor g i d f fin rules).1 ops).rooms.map Room.room_number =
      List.range' 1 (4 + f / 2 + (roll g i 3).1 - 1) := by
    rw [map_number_eq_of_evolve hev, hmap0]
  have hedge : ∀ j, j + 1 < (applyOps (generateFloor g i d f fin rules).1 ops).rooms.length →
      SuccEdge (applyOps (generateFloor g i d f fin rules).1 ops).rooms j := by
    intro j hj
    rw [hev.1] at hj
    exact succEdge_of_evolve hev j hj (hedge0 j hj)
  have hfind : ∀ j, j < 4 + f / 2 + (roll g i 3).1 - 1 →
      findRoom (applyOps (generateFloor g i d f fin rules).1 ops) (1 + j) =
      (applyOps (generateFloor g i d f fin rules).1 ops).rooms.get? j := by
    intro j hj
    exact find?_of_map_range' _ 1 _ hmap j hj
  refine ⟨?_, ?_, ?_⟩
  · -- room 1 accessible
    obtain ⟨r1, hr1, hn1, _, _⟩ := hev.2 0 r0 hr0
    have hacc1 : r1.is_accessible = true := by
      obtain ⟨r1x, h1x, hO⟩ := applyOps_pointwise ops _ 0 r0 hr0
      rw [hr1] at h1x
      cases h1x
      rcases hO.2.2.2 with h | ⟨h, _⟩
      · rw [h, hr0acc]
      · exact h
    refine ⟨r1, ?_, hacc1⟩
    have := hfind 0 (by omega)
    rw [this, hr1]
  · -- connectivity
    intro r hmem
    obtain ⟨j, hj⟩ := List.mem_iff_get?.mp hmem
    have hjlen : j < 4 + f / 2 + (roll g i 3).1 - 1 := by
      by_contra hc
      rw [List.get?_eq_none.mpr (by omega)] at hj
      cases hj
    have hnum : r.room_number = 1 + j := number_at_of_map_range' _ 1 _ hmap j r hj
    rw [ReachableFromEntrance, hnum]
    clear hnum hj hmem r
    induction j with
    | zero => exact Relation.ReflTransGen.refl
    | succ j ihj =>
      refine Relation.ReflTransGen.tail (ihj (by omega)) ?_
      have hjl : j < 4 + f / 2 + (roll g i 3).1 - 1 := by omega
      have hj1 : j + 1 < (applyOps (generateFloor g i d f fin rules).1 ops).rooms.length := by
        omega
      have hget : ∃ rj, (applyOps (generateFloor g i d f fin rules).1 ops).rooms.get? j =
          some rj := by
        rw [List.get?_eq_get (by omega : j < (applyOps
          (generateFloor g i d f fin rules).1 ops).rooms.length)]
        exact ⟨_, rfl⟩
      have hget1 : ∃ rj1, (applyOps (generateFloor g i d f fin rules).1 ops).rooms.get?
          (j + 1) = some rj1 := by
        rw [List.get?_eq_get hj1]
        exact ⟨_, rfl⟩
      obtain ⟨rj, hrj⟩ := hget
      obtain ⟨rj1, hrj1⟩ := hget1
      refine ⟨rj, ?_, ?_⟩
      · rw [hfind j hjl, hrj]
      · have hmem1 := hedge j hj1 rj rj1 hrj hrj1
        have hn1 : rj1.room_number = 1 + (j + 1) :=
          number_at_of_map_range' _ 1 _ hmap (j + 1) rj1 hrj1
        rw [← hn1]
        exact hmem1
  · -- locked rooms stay inaccessible until unlocked
    intro r hmem hty hunl
    obtain ⟨j, hj⟩ := List.mem_iff_get?.mp hmem
    have hjlen : j < (generateFloor g i d f fin rules).1.rooms.length := by
      by_contra hc
      rw [List.get?_eq_none.mpr (by rw [hev.1]; omega)] at hj
      cases hj
    have horig : ∃ ro, (generateFloor g i d f fin rules).1.rooms.get? j = some ro := by
      rw [List.get?_eq_get hjlen]
      exact ⟨_, rfl⟩
    obtain ⟨ro, hro⟩ := horig
    obtain ⟨r', hr', hO⟩ := applyOps_pointwise ops _ j ro hro
    rw [hj] at hr'
    cases hr'
    have htyo : ro.type = RoomType.locked := by
      rw [← hO.2.1, hty]
    rcases hO.2.2.2 with h | ⟨_, hguard⟩
    · rw [h]
      exact hlock0 ro (List.get?_mem hro) htyo
    · rcases hguard with hg | hg
      · exact absurd htyo hg
      · rw [← hO.1] at hg
        exact absurd hg hunl

-- ──────── clearRoom: exact characterization under unique room numbers ────────

theorem updateFirst_map_number (rs : List Room) (n : Nat) (f : Room → Room)
    (hf : ∀ r, (f r).room_number = r.room_number) :
    (updateFirst rs n f).map Room.room_number = rs.map Room.room_number := by
  induction rs with
  | nil => rfl
  | cons a rest ih =>
    unfold updateFirst
    by_cases h : a.room_number = n
    · rw [if_pos h]
      simp [hf a]
    · rw [if_neg h]
      simp [ih]

theorem updateFirst_get?_nodup (rs : List Room) (n : Nat) (f : Room → Room)
    (hN : (rs.map Room.room_number).Nodup) (j : Nat) (r : Room) (h : rs.get? j = some r) :
    (updateFirst rs n f).get? j = some (if r.room_number = n then f r else r) := by
  induction rs generalizing j with
  | nil => cases h
  | cons a rest ih =>
    rw [List.map_cons, List.nodup_cons] at hN
    unfold updateFirst
    by_cases ha : a.room_number = n
    · rw [if_pos ha]
      cases j with
      | zero =>
        rw [List.get?_cons_zero] at h
        cases h
        rw [List.get?_cons_zero, if_pos ha]
      | succ j =>
        rw [List.get?_cons_succ] at h
        rw [List.get?_cons_succ, h]
        have hr : r.room_number ≠ n := by
          intro hc
          apply hN.1
          rw [ha, ← hc]
          exact List.mem_map_of_mem Room.room_number (List.get?_mem h)
        rw [if_neg hr]
    · rw [if_neg ha]
      cases j with
      | zero =>
        rw [List.get?_cons_zero] at h
        cases h
        rw [List.get?_cons_zero, if_neg ha]
      | succ j =>
        rw [List.get?_cons_succ] at h
        rw [List.get?_cons_succ]
        exact ih hN.2 j h

theorem find?_updateFirst (rs : List Room) (n m : Nat) (f : Room → Room)
    (hf : ∀ r, (f r).room_number = r.room_number) :
    (updateFirst rs n f).find? (fun x => x.room_number == m) =
      if m = n then (rs.find? (fun x => x.room_number == n)).map f
      else rs.find? (fun x => x.room_number == m) := by
  induction rs with
  | nil => by_cases h : m = n <;> simp [updateFirst, h]
  | cons a rest ih =>
    unfold updateFirst
    by_cases ha : a.room_number = n
    · rw [if_pos ha]
      by_cases hm : m = n
      · subst hm
        have h1 : ((f a).room_number == m) = true := by simp [hf a, ha]
        have h2 : (a.room_number == m) = true := by simp [ha]
        rw [if_pos rfl,
          @List.find?_cons_of_pos Room (fun x => x.room_number == m) (f a) rest h1,
          @List.find?_cons_of_pos Room (fun x => x.room_number == m) a rest h2]
        rfl
      · have h1 : ¬((f a).room_number == m) = true := by
          simp only [beq_iff_eq, hf a, ha]
          exact fun hc => hm hc.symm
        have h2 : ¬(a.room_number == m) = true := by
          simp only [beq_iff_eq, ha]
          exact fun hc => hm hc.symm
        rw [if_neg hm,
          @List.find?_cons_of_neg Room (fun x => x.room_number == m) (f a) rest h1,
          @List.find?_cons_of_neg Room (fun x => x.room_number == m) a rest h2]
    · rw [if_neg ha]
      by_cases hm : m = n
      · subst hm
        have h2 : ¬(a.room_number == m) = true := by
          simp only [beq_iff_eq]
          exact ha
        rw [if_pos rfl,
          @List.find?_cons_of_neg Room (fun x => x.room_number == m) a
            (updateFirst rest m f) h2,
          @List.find?_cons_of_neg Room (fun x => x.room_number == m) a rest h2]
        have h3 := ih
        rw [if_pos rfl] at h3
        exact h3
      · rw [if_neg hm]
        by_cases haa : a.room_number = m
        · have h2 : (a.room_number == m) = true := by simp [haa]
          rw [@List.find?_cons_of_pos Room (fun x => x.room_number == m) a
              (updateFirst rest n f) h2,
            @List.find?_cons_of_pos Room (fun x => x.room_number == m) a rest h2]
        · have h2 : ¬(a.room_number == m) = true := by
            simp only [beq_iff_eq]
            exact haa
          rw [@List.find?_cons_of_neg Room (fun x => x.room_number == m) a
              (updateFirst rest n f) h2,
            @List.find?_cons_of_neg Room (fun x => x.room_number == m) a rest h2]
          have h3 := ih
          rw [if_neg hm] at h3
          exact h3

theorem find?_eq_of_get?_nodup (rs : List Room) (hN : (rs.map Room.room_number).Nodup)
    (j : Nat) (r : Room) (h : rs.get? j = some r) :
    rs.find? (fun x => x.room_number == r.room_number) = some r := by
  induction rs generalizing j with
  | nil => cases h
  | cons a rest ih =>
    rw [List.map_cons, List.nodup_cons] at hN
    cases j with
    | zero =>
      rw [List.get?_cons_zero] at h
      cases h
      rw [List.find?_cons_of_pos]
      simp
    | succ j =>
      rw [List.get?_cons_succ] at h
      rw [List.find?_cons_of_neg]
      · exact ih hN.2 j h
      · simp only [beq_iff_eq]
        intro hc
        apply hN.1
        rw [hc]
        exact List.mem_map_of_mem Room.room_number (List.get?_mem h)
theorem room_acc_congr (r : Room) (b b' : Bool) (h : b = b') :
    ({ r with is_accessible := b } : Room) = { r with is_accessible := b' } := by
  rw [h]

theorem clearLoop_spec (cs : List Nat) : ∀ rs : List Room,
    (rs.map Room.room_number).Nodup →
    (∀ j r, rs.get? j = some r →
      (clearLoop rs cs).1.get? j = some { r with is_accessible :=
        (r.is_accessible || (decide (r.room_number ∈ cs) &&
          !(r.type == RoomType.locked))) }) ∧
    (∀ m, m ∈ (clearLoop rs cs).2 ↔
      ∃ r, rs.find? (fun x => x.room_number == m) = some r ∧ m ∈ cs ∧
        r.is_accessible = false ∧ r.type ≠ RoomType.locked) ∧
    (clearLoop rs cs).2.Nodup := by
  induction cs with
  | nil =>
    intro rs hN
    refine ⟨fun j r h => ?_, fun m => ?_, List.nodup_nil⟩
    · show rs.get? j = _
      rw [h]
      have hb : (r.is_accessible || (decide (r.room_number ∈ ([] : List Nat)) &&
          !(r.type == RoomType.locked))) = r.is_accessible := by
        simp
      rw [hb]
    · constructor
      · intro h
        exact absurd h (List.not_mem_nil m)
      · rintro ⟨r, _, hm, _⟩
        exact absurd hm (List.not_mem_nil m)
  | cons c rest ih =>
    intro rs hN
    cases hfind : rs.find? (fun x => x.room_number == c) with
    | none =>
      rw [clearLoop_cons_none rs c rest hfind]
      obtain ⟨P1, P2, P3⟩ := ih rs hN
      have hnofind : ∀ j r, rs.get? j = some r → r.room_number ≠ c := by
        intro j r h hc
        have h2 := find?_eq_of_get?_nodup rs hN j r h
        rw [hc, hfind] at h2
        cases h2
      refine ⟨fun j r h => ?_, fun m => ?_, P3⟩
      · rw [P1 j r h]
        refine congrArg some (room_acc_congr r _ _ ?_)
        have hne := hnofind j r h
        simp [List.mem_cons, hne]
      · rw [P2 m]
        constructor
        · rintro ⟨r, hf, hm, ha, ht⟩
          exact ⟨r, hf, List.mem_cons_of_mem c hm, ha, ht⟩
        · rintro ⟨r, hf, hm, ha, ht⟩
          rcases List.mem_cons.mp hm with hmc | hmrest
          · subst hmc
            rw [hfind] at hf
            cases hf
          · exact ⟨r, hf, hmrest, ha, ht⟩
    | some conn =>
      by_cases hguard : conn.is_accessible = false ∧ conn.type ≠ RoomType.locked
      · rw [clearLoop_cons_fire rs c rest conn hfind hguard]
        have hmap1 : (updateFirst rs c (fun r => { r with is_accessible := true })).map
            Room.room_number = rs.map Room.room_number :=
          updateFirst_map_number rs c _ (fun r => rfl)
        have hN1 : ((updateFirst rs c (fun r => { r with is_accessible := true })).map
            Room.room_number).Nodup := by
          rw [hmap1]
          exact hN
        obtain ⟨P1, P2, P3⟩ := ih _ hN1
        refine ⟨fun j r h => ?_, fun m => ?_, ?_⟩
        · have h1 := updateFirst_get?_nodup rs c (fun r => { r with is_accessible := true })
            hN j r h
        
          by_cases hrc : r.room_number = c
          · rw [if_pos hrc] at h1
            have hrconn : conn = r := by
              have h3 := find?_eq_of_get?_nodup rs hN j r h
              rw [hrc, hfind] at h3
              cases h3
              rfl
            have h2 := P1 j _ h1
            rw [h2]
            refine congrArg some (room_acc_congr r _ _ ?_)
            have hacc : r.is_accessible = false := hrconn ▸ hguard.1
            have hty : (r.type == RoomType.locked) = false := by
              have h4 : r.type ≠ RoomType.locked := hrconn ▸ hguard.2
              simp [h4]
            rw [hacc, hty, hrc]
            simp
          · rw [if_neg hrc] at h1
            have h2 := P1 j r h1
            rw [h2]
            refine congrArg some (room_acc_congr r _ _ ?_)
            simp [List.mem_cons, hrc]
        · show m ∈ c :: _ ↔ _
          rw [List.mem_cons]
          constructor
          · rintro (hmc | hmem)
            · subst hmc
              exact ⟨conn, hfind, List.mem_cons_self _ _, hguard.1, hguard.2⟩
            · obtain ⟨r1, hf1, hm1, ha1, ht1⟩ := (P2 m).mp hmem
              rw [find?_updateFirst rs c m (fun r => { r with is_accessible := true }) (fun r => rfl)] at hf1
              by_cases hmc : m = c
              · rw [if_pos hmc, hfind] at hf1
                simp only [Option.map_some'] at hf1
                cases hf1
                simp at ha1
              · rw [if_neg hmc] at hf1
                exact ⟨r1, hf1, List.mem_cons_of_mem c hm1, ha1, ht1⟩
          · rintro ⟨r1, hf1, hm1, ha1, ht1⟩
            by_cases hmc : m = c
            · exact Or.inl hmc
            · right
              have hm1' : m ∈ rest := by
                rcases List.mem_cons.mp hm1 with h | h
                · exact absurd h hmc
                · exact h
              apply (P2 m).mpr
              refine ⟨r1, ?_, hm1', ha1, ht1⟩
              rw [find?_updateFirst rs c m (fun r => { r with is_accessible := true }) (fun r => rfl), if_neg hmc]
              exact hf1
        · show (c :: _).Nodup
          rw [List.nodup_cons]
          refine ⟨?_, P3⟩
          intro hcmem
          obtain ⟨r1, hf1, _, ha1, _⟩ := (P2 c).mp hcmem
          rw [find?_updateFirst rs c c (fun r => { r with is_accessible := true }) (fun r => rfl), if_pos rfl, hfind] at hf1
          simp only [Option.map_some'] at hf1
          cases hf1
          simp at ha1
      · rw [clearLoop_cons_skip rs c rest conn hfind hguard]
        obtain ⟨P1, P2, P3⟩ := ih rs hN
        refine ⟨fun j r h => ?_, fun m => ?_, P3⟩
        · rw [P1 j r h]
          refine congrArg some (room_acc_congr r _ _ ?_)
          by_cases hrc : r.room_number = c
          · have hrconn : conn = r := by
              have h3 := find?_eq_of_get?_nodup rs hN j r h
              rw [hrc, hfind] at h3
              cases h3
              rfl
            rcases Decidable.not_and_iff_or_not.mp hguard with hg | hg
            · have hacc : r.is_accessible = true := by
                have h4 : ¬ conn.is_accessible = false := hg
                rw [← hrconn]
                cases hb : conn.is_accessible
                · exact absurd hb h4
                · rfl
              rw [hacc]
              simp
            · have hty : (r.type == RoomType.locked) = true := by
                have h4 : conn.type = RoomType.locked := Decidable.not_not.mp hg
                simp [← hrconn, h4]
              rw [hty]
              simp
          · simp [List.mem_cons, hrc]
        · rw [P2 m]
          constructor
          · rintro ⟨r1, hf1, hm1, ha1, ht1⟩
            exact ⟨r1, hf1, List.mem_cons_of_mem c hm1, ha1, ht1⟩
          · rintro ⟨r1, hf1, hm1, ha1, ht1⟩
            rcases List.mem_cons.mp hm1 with hmc | hmrest
            · subst hmc
              rw [hfind] at hf1
              cases hf1
              exact absurd ⟨ha1, ht1⟩ hguard
            · exact ⟨r1, hf1, hmrest, ha1, ht1⟩

theorem clearRoom_eq_of_found (fm : FloorMap) (n : Nat) (room : Room)
    (h : findRoom fm n = some room) :
    clearRoom fm n =
      (⟨(clearLoop (updateFirst fm.rooms n (fun r => { r with is_cleared := true }))
          room.connections).1⟩,
       (clearLoop (updateFirst fm.rooms n (fun r => { r with is_cleared := true }))
          room.connections).2) := by
  unfold clearRoom
  rw [h]

/-- C9: `clearRoom(floorMap, N)` marks room N cleared, sets
`is_accessible = true` on exactly the rooms directly connected to N that
are not `locked` and not already accessible (every other room keeps its
accessibility and every other field), and returns exactly the list of
room numbers made newly accessible (each exactly once). -/
theorem clearRoom_frame_spec (fm : FloorMap) (n : Nat) (room : Room)
    (hN : (fm.rooms.map Room.room_number).Nodup)
    (hfind : findRoom fm n = some room) :
    (∀ j r, fm.rooms.get? j = some r →
      (clearRoom fm n).1.rooms.get? j = some
        { r with
          is_cleared := (r.is_cleared || decide (r.room_number = n)),
          is_accessible := (r.is_accessible ||
            (decide (r.room_number ∈ room.connections) &&
              !(r.type == RoomType.locked))) }) ∧
    (∀ m, m ∈ (clearRoom fm n).2 ↔
      ∃ r, findRoom fm m = some r ∧ m ∈ room.connections ∧
        r.is_accessible = false ∧ r.type ≠ RoomType.locked) ∧
    (clearRoom fm n).2.Nodup := by
  rw [clearRoom_eq_of_found fm n room hfind]
  have hmap1 : (updateFirst fm.rooms n (fun r => { r with is_cleared := true })).map
      Room.room_number = fm.rooms.map Room.room_number :=
    updateFirst_map_number _ _ _ (fun r => rfl)
  have hN1 : ((updateFirst fm.rooms n (fun r => { r with is_cleared := true })).map
      Room.room_number).Nodup := by
    rw [hmap1]
    exact hN
  obtain ⟨P1, P2, P3⟩ := clearLoop_spec room.connections _ hN1
  refine ⟨fun j r h => ?_, fun m => ?_, P3⟩
  · have h1 := updateFirst_get?_nodup fm.rooms n (fun r => { r with is_cleared := true })
      hN j r h
    by_cases hrn : r.room_number = n
    · rw [if_pos hrn] at h1
      have h2 := P1 j _ h1
      have hb : (r.is_cleared || decide (r.room_number = n)) = true := by
        simp [hrn]
      rw [hb]
      exact h2
    · rw [if_neg hrn] at h1
      have h2 := P1 j r h1
      have hb : (r.is_cleared || decide (r.room_number = n)) = r.is_cleared := by
        simp [hrn]
      rw [hb]
      exact h2
  · rw [P2 m]
    constructor
    · rintro ⟨r1, hf1, hm1, ha1, ht1⟩
      rw [find?_updateFirst fm.rooms n m (fun r => { r with is_cleared := true })
        (fun r => rfl)] at hf1
      by_cases hmn : m = n
      · rw [if_pos hmn] at hf1
        have hfr : fm.rooms.find? (fun x => x.room_number == n) = some room := hfind
        rw [hfr] at hf1
        simp only [Option.map_some'] at hf1
        cases hf1
        exact ⟨room, hmn ▸ hfind, hm1, ha1, ht1⟩
      · rw [if_neg hmn] at hf1
        exact ⟨r1, hf1, hm1, ha1, ht1⟩
    · rintro ⟨r, hf, hm, ha, ht⟩
      by_cases hmn : m = n
      · subst hmn
        have hr : r = room := by
          rw [hfind] at hf
          cases hf
          rfl
        subst hr
        refine ⟨{ r with is_cleared := true }, ?_, hm, ha, ht⟩
        rw [find?_updateFirst fm.rooms m m (fun r => { r with is_cleared := true })
          (fun r => rfl), if_pos rfl]
        have hfr : fm.rooms.find? (fun x => x.room_number == m) = some r := hf
        rw [hfr]
        rfl
      · refine ⟨r, ?_, hm, ha, ht⟩
        rw [find?_updateFirst fm.rooms n m (fun r => { r with is_cleared := true })
          (fun r => rfl), if_neg hmn]
        exact hf

/-- Witness for C9: clearing room 1 of the three-room sample map. -/
theorem clearRoom_frame_spec_witness :
    (∀ j r, sampleMap.rooms.get? j = some r →
      (clearRoom sampleMap 1).1.rooms.get? j = some
        { r with
          is_cleared := (r.is_cleared || decide (r.room_number = 1)),
          is_accessible := (r.is_accessible ||
            (decide (r.room_number ∈ (sampleRoom 1 RoomType.standard true [2, 3]).connections) &&
              !(r.type == RoomType.locked))) }) ∧
    (∀ m, m ∈ (clearRoom sampleMap 1).2 ↔
      ∃ r, findRoom sampleMap m = some r ∧
        m ∈ (sampleRoom 1 RoomType.standard true [2, 3]).connections ∧
        r.is_accessible = false ∧ r.type ≠ RoomType.locked) ∧
    (clearRoom sampleMap 1).2.Nodup :=
  clearRoom_frame_spec sampleMap 1 (sampleRoom 1 RoomType.standard true [2, 3])
    (by decide) (by decide)

-- ═══════════════════════ C2: `processAction` locking ═══════════════════════

/-- C2: `processAction` rejects a request with no run, and rejects any
request while the run's status is not `active`; with an active run it
persists the record with status `processing` (and the action text
pending) for the duration of the turn body, and if the body throws, the
run is restored to `active` with the pending-action marker cleared and
the error propagates to the caller; a successful body's persisted record
stands. -/
theorem processAction_locking (run : RunRec) (text : String)
    (turnBody : RunRec → Except String (TurnOutcome × RunRec)) :
    (processAction none text turnBody = (none, Except.error "No active run.")) ∧
    (run.status ≠ RunStatus.active →
      processAction (some run) text turnBody =
        (some run, Except.error "Run is not active.")) ∧
    (run.status = RunStatus.active → ∀ e : String,
      turnBody { run with status := RunStatus.processing,
                          pending_action_text := some text } = Except.error e →
      processAction (some run) text turnBody =
        (some { run with status := RunStatus.active, pending_action_text := none },
         Except.error e)) ∧
    (run.status = RunStatus.active → ∀ (res : TurnOutcome) (run2 : RunRec),
      turnBody { run with status := RunStatus.processing,
                          pending_action_text := some text } = Except.ok (res, run2) →
      processAction (some run) text turnBody = (some run2, Except.ok res)) := by
  have e1 : processAction (some run) text turnBody =
      (if run.status ≠ RunStatus.active then (some run, Except.error "Run is not active.")
       else
         match turnBody { run with status := RunStatus.processing,
                                     pending_action_text := some text } with
         | Except.error e =>
           (some { run with status := RunStatus.active, pending_action_text := none },
            Except.error e)
         | Except.ok out => (some out.2, Except.ok out.1)) := rfl
  refine ⟨rfl, ?_, ?_, ?_⟩
  · intro h
    rw [e1, if_pos h]
  · intro h e hb
    rw [e1, if_neg (by simp [h]), hb]
  · intro h res run2 hb
    rw [e1, if_neg (by simp [h]), hb]

/-- Witness for C2: a body that throws leaves the sample run restored to
`active` with the pending marker cleared, and propagates the error. -/
theorem processAction_locking_witness :
    sampleActiveRun.status = RunStatus.active ∧
    processAction (some sampleActiveRun) "pick the lock"
        (fun _ => Except.error "persistence failed") =
      (some { sampleActiveRun with status := RunStatus.active,
                                   pending_action_text := none },
       Except.error "persistence failed") :=
  ⟨rfl, (processAction_locking sampleActiveRun "pick the lock"
    (fun _ => Except.error "persistence failed")).2.2.1 rfl "persistence failed" rfl⟩

-- ═══════════════════════ C8: enemy death ends combat ═══════════════════════

theorem get?_set_self (l : List α) (i : Nat) (a : α) (h : i < l.length) :
    (l.set i a).get? i = some a := by
  induction l generalizing i with
  | nil => simp at h
  | cons b t ih =>
    cases i with
    | zero => rfl
    | succ j => exact ih j (Nat.lt_of_succ_lt_succ h)

/-- C8: a `damageEnemy` call that reduces the target's hp to 0 or below
marks the enemy dead (hp clamped to 0), and clears the room's
combat-active flag iff every enemy in the updated room state is then
dead; a kill that leaves a living enemy leaves the flag unchanged. -/
theorem damageEnemy_death_ends_combat (g : Src) (i : Nat) (rs : RoomState) (idx : Nat)
    (damage : ℚ) (damageType : String) (lootRules : List LootRule) (e : Enemy)
    (he : rs.enemies.get? idx = some e)
    (hkill : e.hp_current - appliedDamage e damage damageType ≤ 0) :
    (damageEnemy g i rs idx damage damageType lootRules).2.1.enemyDied = true ∧
    (damageEnemy g i rs idx damage damageType lootRules).1.enemies.get? idx =
      some { e with hp_current := 0, is_dead := true } ∧
    ((rs.enemies.set idx { e with hp_current := 0, is_dead := true }).all
        (fun x => x.is_dead) = true →
      (damageEnemy g i rs idx damage damageType lootRules).1.is_combat_active = false) ∧
    ((rs.enemies.set idx { e with hp_current := 0, is_dead := true }).all
        (fun x => x.is_dead) = false →
      (damageEnemy g i rs idx damage damageType lootRules).1.is_combat_active =
        rs.is_combat_active) := by
  have e0 : damageEnemy g i rs idx damage damageType lootRules =
      (if e.hp_current - appliedDamage e damage damageType ≤ 0 then
        ({ rs with enemies := rs.enemies.set idx { e with hp_current := 0, is_dead := true },
                   is_combat_active :=
                     if (rs.enemies.set idx { e with hp_current := 0, is_dead := true }).all
                         (fun x => x.is_dead) then false
                     else rs.is_combat_active },
         { damageDealt := appliedDamage e damage damageType
           rawDamage := damage
           resistanceApplied := decide (enemyResistanceFor e damageType ≠ 1)
           resistanceMultiplier := enemyResistanceFor e damageType
           armorReduced := max 0 (jround (damage * enemyResistanceFor e damageType) -
             appliedDamage e damage damageType)
           enemyDied := true
           loot := (resolveLoot g i (if e.is_boss ≠ 0 then "boss" else "enemy_kill")
             lootRules emptyLootContext).1
           goldDrop := (rollGoldDrop g (resolveLoot g i (if e.is_boss ≠ 0 then "boss"
             else "enemy_kill") lootRules emptyLootContext).2 e.gold_reward_min
             e.gold_reward_max).1
           xpReward := e.xp_reward },
         (rollGoldDrop g (resolveLoot g i (if e.is_boss ≠ 0 then "boss" else "enemy_kill")
           lootRules emptyLootContext).2 e.gold_reward_min e.gold_reward_max).2)
       else
        ({ rs with enemies := rs.enemies.set idx
                     { e with hp_current := e.hp_current - appliedDamage e damage damageType } },
         { damageDealt := appliedDamage e damage damageType
           rawDamage := damage
           resistanceApplied := decide (enemyResistanceFor e damageType ≠ 1)
           resistanceMultiplier := enemyResistanceFor e damageType
           armorReduced := max 0 (jround (damage * enemyResistanceFor e damageType) -
             appliedDamage e damage damageType)
           enemyDied := false
           loot := []
           goldDrop := 0
           xpReward := 0 }, i)) := by
    unfold damageEnemy
    rw [he]
    rfl
  rw [e0, if_pos hkill]
  have hidx : idx < rs.enemies.length := by
    rcases List.get?_eq_some.mp he with ⟨hlt, _⟩
    exact hlt
  refine ⟨rfl, ?_, ?_, ?_⟩
  · exact get?_set_self rs.enemies idx { e with hp_current := 0, is_dead := true } hidx
  · intro h
    rw [if_pos h]
  · intro h
    rw [if_neg (by rw [h]; exact Bool.false_ne_true)]

/-- Witness for C8: 10 damage kills the 5-hp sample enemy, the only one
in the room, and combat ends. -/
theorem damageEnemy_death_ends_combat_witness :
    sampleCombatState.enemies.get? 0 = some sampleEnemy ∧
    sampleEnemy.hp_current - appliedDamage sampleEnemy 10 "physical" ≤ 0 ∧
    (damageEnemy (fun _ => 0) 0 sampleCombatState 0 10 "physical" []).2.1.enemyDied = true ∧
    (damageEnemy (fun _ => 0) 0 sampleCombatState 0 10 "physical" []).1.is_combat_active =
      false := by
  have hkill : sampleEnemy.hp_current - appliedDamage sampleEnemy 10 "physical" ≤ 0 := by
    norm_num [sampleEnemy, appliedDamage, enemyResistanceFor, jround]
  refine ⟨rfl, hkill, ?_, ?_⟩
  · exact (damageEnemy_death_ends_combat (fun _ => 0) 0 sampleCombatState 0 10 "physical"
      [] sampleEnemy rfl hkill).1
  · exact (damageEnemy_death_ends_combat (fun _ => 0) 0 sampleCombatState 0 10 "physical"
      [] sampleEnemy rfl hkill).2.2.1 (by decide)

-- ═══════════════════ C6: guaranteed loot always fires ═══════════════════

theorem weightedPhase_prefix (g : Src) (elig : List LootRule) (k i : Nat)
    (drops : List Drop) :
    ∃ ws, (weightedPhase g elig i k drops).1 = drops ++ ws := by
  induction k generalizing i drops with
  | zero => exact ⟨[], by simp [weightedPhase]⟩
  | succ k ih =>
    simp only [weightedPhase]
    split
    next sel heq =>
      split
      next hdup => exact ih _ drops
      next hdup =>
        rcases ih (weightedRandom g i (elig.map (fun r => (r.base_weight, r)))).2
          (drops ++ [makeDrop sel sel.requires_perception]) with ⟨ws, hws⟩
        exact ⟨makeDrop sel sel.requires_perception :: ws, by rw [hws, List.append_assoc]; rfl⟩
    next heq => exact ih _ drops

theorem resolveLoot_guaranteed_prefix (g : Src) (i : Nat) (sourceType : String)
    (rules : List LootRule) (ctx : LootContext) :
    ∃ ws, (resolveLoot g i sourceType rules ctx).1 = guaranteedDrops rules ctx ++ ws := by
  unfold resolveLoot
  by_cases h1 : rules.isEmpty
  · rw [if_pos h1]
    have : rules = [] := by
      cases rules with
      | nil => rfl
      | cons a t => simp [List.isEmpty] at h1
    subst this
    exact ⟨[], rfl⟩
  · rw [if_neg h1]
    by_cases h2 : (eligWeighted rules ctx).isEmpty
    · rw [if_pos h2]
      exact ⟨[], by simp⟩
    · rw [if_neg h2]
      exact weightedPhase_prefix g (eligWeighted rules ctx) _ i (guaranteedDrops rules ctx)

/-- C6: every guaranteed rule whose condition holds and whose perception
gate is met (no perception required, or the perception level meets
`perception_dc − 5`) contributes its item to the drops `resolveLoot`
returns. -/
theorem resolveLoot_guaranteed (g : Src) (i : Nat) (sourceType : String)
    (rules : List LootRule) (ctx : LootContext) (rule : LootRule)
    (hmem : rule ∈ rules)
    (hg : rule.drop_type = "guaranteed")
    (hcond : checkCondition rule ctx = true)
    (hperc : rule.requires_perception = false ∨
      perceptionDcValue rule - 5 ≤ perceptionValue ctx) :
    makeDrop rule rule.requires_perception ∈ (resolveLoot g i sourceType rules ctx).1 := by
  have helig : ruleEligible rule ctx = true := by
    rcases hperc with h | h
    · simp [ruleEligible, hcond, h]
    · simp [ruleEligible, hcond, checkPerception, h]
  have hd : makeDrop rule rule.requires_perception ∈ guaranteedDrops rules ctx := by
    apply List.mem_map_of_mem
    exact List.mem_filter.mpr ⟨List.mem_filter.mpr ⟨hmem, by simp [hg]⟩, helig⟩
  rcases resolveLoot_guaranteed_prefix g i sourceType rules ctx with ⟨ws, hws⟩
  rw [hws]
  exact List.mem_append_left ws hd

/-- Witness for C6: a satisfied guaranteed rule's gem is in the drops of
a chest resolution. -/
theorem resolveLoot_guaranteed_witness :
    dupGemRule ∈ [dupGemRule] ∧ dupGemRule.drop_type = "guaranteed" ∧
    checkCondition dupGemRule emptyLootContext = true ∧
    makeDrop dupGemRule dupGemRule.requires_perception ∈
      (resolveLoot (fun _ => 0) 0 "chest" [dupGemRule] emptyLootContext).1 :=
  ⟨List.mem_singleton.mpr rfl, rfl, rfl,
   resolveLoot_guaranteed (fun _ => 0) 0 "chest" [dupGemRule] emptyLootContext dupGemRule
     (List.mem_singleton.mpr rfl) rfl rfl (Or.inl rfl)⟩

-- ═══════════════ C7: weighted-draw bound and de-duplication ═══════════════

/-- C7 counterexample: the schema places no uniqueness constraint on
`loot_rules`, and the guaranteed-drops loop pushes a drop per matching
rule without de-duplication, so two guaranteed rules for the same item
yield duplicate item identifiers in a single `resolveLoot` call (only
weighted draws are deduped). -/
theorem resolveLoot_dup_counterexample :
    ((resolveLoot (fun _ => 0) 0 "chest" [dupGemRule, dupGemRule]
        emptyLootContext).1.map Drop.item_id = [7, 7]) ∧
    ¬((resolveLoot (fun _ => 0) 0 "chest" [dupGemRule, dupGemRule]
        emptyLootContext).1.map Drop.item_id).Nodup := by
  decide

theorem weightedPhase_fresh (g : Src) (elig : List LootRule) (k i : Nat)
    (drops : List Drop) :
    ∃ ws, (weightedPhase g elig i k drops).1 = drops ++ ws ∧ ws.length ≤ k ∧
      (∀ y ∈ ws, ∀ x ∈ drops, y.item_id ≠ x.item_id) ∧
      (ws.map Drop.item_id).Nodup := by
  induction k generalizing i drops with
  | zero =>
    exact ⟨[], by simp [weightedPhase], by simp, by simp, by simp⟩
  | succ k ih =>
    simp only [weightedPhase]
    split
    next sel heq =>
      split
      next hdup =>
        rcases ih (weightedRandom g i (elig.map (fun r => (r.base_weight, r)))).2 drops
          with ⟨ws, h1, h2, h3, h4⟩
        exact ⟨ws, h1, Nat.le_succ_of_le h2, h3, h4⟩
      next hdup =>
        rcases ih (weightedRandom g i (elig.map (fun r => (r.base_weight, r)))).2
          (drops ++ [makeDrop sel sel.requires_perception]) with ⟨ws, h1, h2, h3, h4⟩
        refine ⟨makeDrop sel sel.requires_perception :: ws, ?_, ?_, ?_, ?_⟩
        · rw [h1, List.append_assoc]
          rfl
        · simpa using Nat.succ_le_succ h2
        · intro y hy x hx
          rcases List.mem_cons.mp hy with hy0 | hy1
          · subst hy0
            intro hcontra
            exact hdup (List.any_eq_true.mpr ⟨x, hx, beq_iff_eq.mpr hcontra.symm⟩)
          · exact h3 y hy1 x (List.mem_append_left _ hx)
        · rw [List.map_cons]
          refine List.nodup_cons.mpr ⟨?_, h4⟩
          intro hmem
          rcases List.mem_map.mp hmem with ⟨y, hy, hye⟩
          exact h3 y hy (makeDrop sel sel.requires_perception)
            (List.mem_append_right _ (List.mem_singleton.mpr rfl)) hye
    next heq =>
      rcases ih (weightedRandom g i (elig.map (fun r => (r.base_weight, r)))).2 drops
        with ⟨ws, h1, h2, h3, h4⟩
      exact ⟨ws, h1, Nat.le_succ_of_le h2, h3, h4⟩

/-- C7 (amended): for `chest`/`boss` sources, the drops are the
guaranteed drops followed by at most 2 weighted draws, and every
weighted draw's item identifier appears exactly once in the whole
returned list (the weighted loop de-duplicates against all current
drops); only guaranteed rules can produce duplicate identifiers. -/
theorem resolveLoot_weighted_bound (g : Src) (i : Nat) (sourceType : String)
    (rules : List LootRule) (ctx : LootContext)
    (hsrc : sourceType = "chest" ∨ sourceType = "boss") :
    ∃ ws, (resolveLoot g i sourceType rules ctx).1 = guaranteedDrops rules ctx ++ ws ∧
      ws.length ≤ 2 ∧ (ws.map Drop.item_id).Nodup ∧
      ∀ d ∈ ws, ((resolveLoot g i sourceType rules ctx).1.map Drop.item_id).count
        d.item_id = 1 := by
  unfold resolveLoot
  by_cases h1 : rules.isEmpty
  · rw [if_pos h1]
    have hru : rules = [] := by
      cases rules with
      | nil => rfl
      | cons a t => simp [List.isEmpty] at h1
    subst hru
    exact ⟨[], by simp [guaranteedDrops], by simp, by simp, by simp⟩
  · rw [if_neg h1]
    by_cases h2 : (eligWeighted rules ctx).isEmpty
    · rw [if_pos h2]
      exact ⟨[], by simp, by simp, by simp, by simp⟩
    · rw [if_neg h2, if_pos hsrc]
      rcases weightedPhase_fresh g (eligWeighted rules ctx) 2 i (guaranteedDrops rules ctx)
        with ⟨ws, hpre, hlen, hfresh, hnd⟩
      refine ⟨ws, hpre, hlen, hnd, ?_⟩
      intro d hd
      rw [hpre, List.map_append, List.count_append]
      have hzero : (List.map Drop.item_id (guaranteedDrops rules ctx)).count d.item_id
          = 0 := by
        apply List.count_eq_zero.mpr
        intro hmem
        rcases List.mem_map.mp hmem with ⟨x, hx, hxe⟩
        exact hfresh d hd x hx hxe.symm
      have hone : (List.map Drop.item_id ws).count d.item_id = 1 :=
        List.count_eq_one_of_mem hnd (List.mem_map_of_mem Drop.item_id hd)
      rw [hzero, hone]

/-- Witness for C7 (amended): a chest resolution with one guaranteed
rule and no weighted pool — the weighted suffix is empty and trivially
bounded. -/
theorem resolveLoot_weighted_bound_witness :
    ∃ ws, (resolveLoot (fun _ => 0) 0 "chest" [dupGemRule] emptyLootContext).1 =
        guaranteedDrops [dupGemRule] emptyLootContext ++ ws ∧
      ws.length ≤ 2 ∧ (ws.map Drop.item_id).Nodup ∧
      ∀ d ∈ ws, ((resolveLoot (fun _ => 0) 0 "chest" [dupGemRule]
          emptyLootContext).1.map Drop.item_id).count d.item_id = 1 :=
  resolveLoot_weighted_bound (fun _ => 0) 0 "chest" [dupGemRule] emptyLootContext
    (Or.inl rfl)

-- ═══════════════ C10: the Thieves'-Pick gate of lockpicking ═══════════════

theorem pickTotal_cons (a : InvItem) (l : List InvItem) :
    pickTotal (a :: l) =
      (if a.item_name == "Thieves' Pick" then a.quantity else 0) + pickTotal l := by
  by_cases h : a.item_name == "Thieves' Pick"
  · simp [pickTotal, List.filter_cons, h]
  · simp [pickTotal, List.filter_cons, h]

theorem invFind_of_mem_nodup (inv : List InvItem) (pick : InvItem)
    (hN : (inv.map InvItem.id).Nodup) (hmem : pick ∈ inv) :
    inv.find? (fun it => it.id == pick.id) = some pick := by
  induction inv with
  | nil => simp at hmem
  | cons a t ih =>
    rcases List.mem_cons.mp hmem with h | h
    · subst h
      exact List.find?_cons_of_pos t (by simp)
    · have hne : ¬(a.id == pick.id) = true := by
        intro hc
        have : pick.id ∈ t.map InvItem.id := List.mem_map_of_mem InvItem.id h
        rw [← beq_iff_eq.mp hc] at this
        exact (List.nodup_cons.mp (by simpa using hN)).1 this
      rw [@List.find?_cons_of_neg InvItem (fun it => it.id == pick.id) a t hne]
      exact ih (List.nodup_cons.mp (by simpa using hN)).2 h

theorem filter_out_pickTotal (inv : List InvItem) (pick : InvItem)
    (hN : (inv.map InvItem.id).Nodup) (hmem : pick ∈ inv)
    (hname : pick.item_name = "Thieves' Pick") :
    pickTotal (inv.filter (fun it => !(it.id == pick.id))) =
      pickTotal inv - pick.quantity := by
  induction inv with
  | nil => simp at hmem
  | cons a t ih =>
    rcases List.mem_cons.mp hmem with h | h
    · subst h
      have hkeep : t.filter (fun it => !(it.id == pick.id)) = t := by
        apply List.filter_eq_self.mpr
        intro x hx
        simp only [Bool.not_eq_true', beq_eq_false_iff_ne]
        intro hc
        have : pick.id ∈ t.map InvItem.id := by
          rw [← hc]
          exact List.mem_map_of_mem InvItem.id hx
        exact absurd this (List.nodup_cons.mp (by simpa using hN)).1
      rw [List.filter_cons]
      simp only [beq_self_eq_true, Bool.not_true, if_neg (by simp : ¬(false = true))]
      rw [hkeep, pickTotal_cons]
      rw [if_pos (by simp [hname])]
      omega
    · have hne : pick.id ≠ a.id := by
        intro hc
        have : pick.id ∈ t.map InvItem.id := List.mem_map_of_mem InvItem.id h
        rw [hc] at this
        exact (List.nodup_cons.mp (by simpa using hN)).1 this
      rw [List.filter_cons]
      rw [if_pos (by simp [Ne.symm hne] : (!(a.id == pick.id)) = true)]
      rw [pickTotal_cons, pickTotal_cons,
        ih (List.nodup_cons.mp (by simpa using hN)).2 h]
      omega

theorem map_dec_pickTotal (inv : List InvItem) (pick : InvItem)
    (hN : (inv.map InvItem.id).Nodup) (hmem : pick ∈ inv)
    (hname : pick.item_name = "Thieves' Pick") :
    pickTotal (inv.map (fun it =>
        if it.id == pick.id then { it with quantity := it.quantity - 1 } else it)) =
      pickTotal inv - 1 := by
  induction inv with
  | nil => simp at hmem
  | cons a t ih =>
    rcases List.mem_cons.mp hmem with h | h
    · subst h
      have hkeep : t.map (fun it =>
          if it.id == pick.id then { it with quantity := it.quantity - 1 } else it) = t := by
        have : ∀ x ∈ t, (fun it =>
            if it.id == pick.id then { it with quantity := it.quantity - 1 } else it) x
            = id x := by
          intro x hx
          simp only [id]
          rw [if_neg]
          intro hc
          have : pick.id ∈ t.map InvItem.id := by
            rw [← beq_iff_eq.mp hc]
            exact List.mem_map_of_mem InvItem.id hx
          exact absurd this (List.nodup_cons.mp (by simpa using hN)).1
        rw [List.map_congr_left this, List.map_id]
      rw [List.map_cons, if_pos (by simp : (pick.id == pick.id) = true), hkeep,
        pickTotal_cons, pickTotal_cons]
      simp only [hname, beq_self_eq_true, if_true]
      omega
    · have hne : pick.id ≠ a.id := by
        intro hc
        have : pick.id ∈ t.map InvItem.id := List.mem_map_of_mem InvItem.id h
        rw [hc] at this
        exact (List.nodup_cons.mp (by simpa using hN)).1 this
      rw [List.map_cons]
      rw [if_neg (by simp [Ne.symm hne])]
      rw [pickTotal_cons, pickTotal_cons,
        ih (List.nodup_cons.mp (by simpa using hN)).2 h]
      omega

theorem removeItem_pickTotal (inv : List InvItem) (pick : InvItem)
    (hN : (inv.map InvItem.id).Nodup)
    (hfind : inv.find? (fun it => it.item_name == "Thieves' Pick" && 0 < it.quantity)
      = some pick) :
    pickTotal (removeItem inv pick.id 1) = pickTotal inv - 1 := by
  have hmem : pick ∈ inv := List.mem_of_find?_eq_some hfind
  have hp := List.find?_some hfind
  rw [Bool.and_eq_true] at hp
  have hname : pick.item_name = "Thieves' Pick" := beq_iff_eq.mp hp.1
  have hq : 0 < pick.quantity := of_decide_eq_true hp.2
  have e0 : removeItem inv pick.id 1 =
      if pick.quantity ≤ 1 then inv.filter (fun it => !(it.id == pick.id))
      else inv.map (fun it =>
        if it.id == pick.id then { it with quantity := it.quantity - 1 } else it) := by
    unfold removeItem
    rw [invFind_of_mem_nodup inv pick hN hmem]
  rw [e0]
  by_cases hq1 : pick.quantity ≤ 1
  · rw [if_pos hq1, filter_out_pickTotal inv pick hN hmem hname]
    omega
  · rw [if_neg hq1, map_dec_pickTotal inv pick hN hmem hname]

/-- C10: a lockpicking skill check that targets a lock (the current
room's lock, a locked chest there, or an adjacent locked room — i.e. the
DC determination resolves a lockpick target): with no Thieves' Pick in
the inventory the action returns the inert `noPickResult` — no d20 is
rolled, no state is touched, only the missing pick is reported; with a
pick present, the pick row is decremented before the check is rolled
(one check is recorded), so the pick is consumed even when the check
fails. -/
theorem processSkillCheck_pick_gate (g : Src) (i : Nat) (fm : FloorMap) (roomNumber : Nat)
    (rst : RoomState) (inv : List InvItem) (bs : BaseStats) (skills : List (String × Int))
    (dungeon : Dungeon) (chestRules : List LootRule) (torchLit fungusLit : Bool)
    (playerHp : Int) (room : Room)
    (hroom : findRoom fm roomNumber = some room)
    (htgt : (skillCheckDcTarget g i "lockpicking" fm room dungeon).1.2.isSome = true) :
    (inv.find? (fun it => it.item_name == "Thieves' Pick" && 0 < it.quantity) = none →
      processSkillCheck g i (some "lockpicking") fm roomNumber rst inv bs skills dungeon
          chestRules torchLit fungusLit playerHp =
        noPickResult fm rst inv playerHp
          (skillCheckDcTarget g i "lockpicking" fm room dungeon).2) ∧
    (∀ pick, inv.find? (fun it => it.item_name == "Thieves' Pick" && 0 < it.quantity)
        = some pick →
      (processSkillCheck g i (some "lockpicking") fm roomNumber rst inv bs skills dungeon
        chestRules torchLit fungusLit playerHp).lockpickConsumed = true ∧
      (processSkillCheck g i (some "lockpicking") fm roomNumber rst inv bs skills dungeon
        chestRules torchLit fungusLit playerHp).checks.length = 1 ∧
      (processSkillCheck g i (some "lockpicking") fm roomNumber rst inv bs skills dungeon
        chestRules torchLit fungusLit playerHp).inventory = removeItem inv pick.id 1 ∧
      ((inv.map InvItem.id).Nodup →
        pickTotal (processSkillCheck g i (some "lockpicking") fm roomNumber rst inv bs
          skills dungeon chestRules torchLit fungusLit playerHp).inventory =
          pickTotal inv - 1)) := by
  have e0 : processSkillCheck g i (some "lockpicking") fm roomNumber rst inv bs skills
      dungeon chestRules torchLit fungusLit playerHp =
      processSkillCheckBody g i "lockpicking" fm roomNumber room rst inv bs skills dungeon
        chestRules torchLit fungusLit playerHp := by
    unfold processSkillCheck
    rw [hroom]
    rfl
  constructor
  · intro hfind
    have hlp : lockpickPick "lockpicking"
        (skillCheckDcTarget g i "lockpicking" fm room dungeon).1.2 inv = none := by
      unfold lockpickPick
      rw [if_pos ⟨rfl, htgt⟩]
      exact hfind
    rw [e0]
    unfold processSkillCheckBody
    rw [if_pos ⟨rfl, htgt, by rw [hlp]; rfl⟩]
  · intro pick hfind
    have hlp : lockpickPick "lockpicking"
        (skillCheckDcTarget g i "lockpicking" fm room dungeon).1.2 inv = some pick := by
      unfold lockpickPick
      rw [if_pos ⟨rfl, htgt⟩]
      exact hfind
    have e1 : processSkillCheckBody g i "lockpicking" fm roomNumber room rst inv bs skills
        dungeon chestRules torchLit fungusLit playerHp =
        skillCheckAfterGate g (skillCheckDcTarget g i "lockpicking" fm room dungeon).2
          "lockpicking" fm roomNumber room
          (skillCheckDcTarget g i "lockpicking" fm room dungeon).1.1
          (skillCheckDcTarget g i "lockpicking" fm room dungeon).1.2 rst
          (removeItem inv pick.id 1) true bs skills chestRules torchLit fungusLit
          playerHp := by
      unfold processSkillCheckBody
      rw [if_neg (fun hcon => absurd hcon.2.2 (by rw [hlp]; simp)), hlp]
      rfl
    refine ⟨?_, ?_, ?_, ?_⟩
    · rw [e0, e1]
      rfl
    · rw [e0, e1]
      rfl
    · rw [e0, e1]
      rfl
    · intro hN
      rw [e0, e1]
      show pickTotal (removeItem inv pick.id 1) = pickTotal inv - 1
      exact removeItem_pickTotal inv pick hN hfind

/-- Witness for C10: picking toward the adjacent locked room of
`lockpickMap` with two Thieves' Picks consumes exactly one. -/
theorem processSkillCheck_pick_gate_witness :
    findRoom lockpickMap 1 = some (sampleRoom 1 RoomType.standard true [2]) ∧
    (skillCheckDcTarget (fun _ => 0) 0 "lockpicking" lockpickMap
        (sampleRoom 1 RoomType.standard true [2]) sampleDungeon).1.2.isSome = true ∧
    (processSkillCheck (fun _ => 0) 0 (some "lockpicking") lockpickMap 1 sampleCombatState
        [⟨1, "Thieves' Pick", 2⟩] sampleStats [] sampleDungeon [] false false
        20).lockpickConsumed = true ∧
    pickTotal (processSkillCheck (fun _ => 0) 0 (some "lockpicking") lockpickMap 1
        sampleCombatState [⟨1, "Thieves' Pick", 2⟩] sampleStats [] sampleDungeon [] false
        false 20).inventory =
      pickTotal [⟨1, "Thieves' Pick", 2⟩] - 1 := by
  have h := processSkillCheck_pick_gate (fun _ => 0) 0 lockpickMap 1 sampleCombatState
    [⟨1, "Thieves' Pick", 2⟩] sampleStats [] sampleDungeon [] false false 20
    (sampleRoom 1 RoomType.standard true [2]) (by decide) (by decide)
  rcases h.2 ⟨1, "Thieves' Pick", 2⟩ rfl with ⟨hc, hl, hi, hn⟩
  exact ⟨by decide, by decide, hc, hn (by decide)⟩

end Delve
